import Mathlib

/-!
Verification of the `bevy_prefab` template-instantiation engine against its
natural-language specification.  The Rust source is shallowly embedded:

* hash maps become association lists (first match wins, keys are inserted
  only when absent, exactly as the `Entry` API used by the source);
* `&mut self` methods become functions returning the updated state, paired
  with an `Option`/`Except` error mirroring `anyhow::Result`;
* panics (`unwrap`, `panic!`) are modelled as `Except.error`;
* type-erased machinery (`TypeId`, `Uuid`, trait objects) is modelled by
  plain identifiers (`Nat`/`String`) and first-order data.
-/

set_option autoImplicit false

namespace BevyPrefab

/-- Association-list lookup, first match wins.  Models `HashMap::get` for the
registries (keys are never inserted twice, so first match is the only match). -/
def alookup {α β : Type} [DecidableEq α] (k : α) : List (α × β) → Option β
  | [] => none
  | (a, b) :: t => if a = k then some b else alookup k t

@[simp]
theorem alookup_nil {α β : Type} [DecidableEq α] (k : α) :
    alookup (β := β) k [] = none := rfl

@[simp]
theorem alookup_cons {α β : Type} [DecidableEq α] (k a : α) (b : β) (t : List (α × β)) :
    alookup k ((a, b) :: t) = if a = k then some b else alookup k t := rfl

/-! ## Registry model (src/registry/mod.rs and src/registry/prefab.rs) -/

/-- Model of `std::any::TypeId`. -/
abbrev TypeId := Nat

/-- Model of `bevy::reflect::Uuid` (uuids are compared for equality only). -/
abbrev Uuid := String

/-- Error cases of registration.  `RegistryError` in `src/registry/mod.rs` has
the first two constructors; `PrefabRegistryError::UuidAlreadyRegistered` in
`src/registry/prefab.rs` is the third.  Both Rust enums flow into the same
`anyhow::Result`, so they are merged into one inductive here. -/
inductive RegistryError where
  | aliasAlreadyRegistered (a : String)
  | typeAlreadyRegistered (typeName : String)
  | uuidAlreadyRegistered (typeName : String)
  deriving Repr, DecidableEq

/-- Model of `RegistryInner<T>`: a contents vector plus an alias-keyed and a
type-keyed index map. -/
structure RegistryInner (T : Type) where
  contents : List T
  named : List (String × Nat)
  typed : List (TypeId × Nat)
  deriving Repr, DecidableEq

/-- Model of `RegistryInner::find_by_name`. -/
def RegistryInner.find_by_name {T : Type} (r : RegistryInner T) (name : String) : Option T :=
  (alookup name r.named).bind fun i => r.contents.get? i

/-- Model of `RegistryInner::find_by_type`. -/
def RegistryInner.find_by_type {T : Type} (r : RegistryInner T) (type_id : TypeId) : Option T :=
  (alookup type_id r.typed).bind fun i => r.contents.get? i

/-- Model of `RegistryInner::register_internal`.  The Rust method mutates
`&mut self`; here the (possibly unchanged) state is returned together with the
result.  The match arms keep the source order: an occupied alias entry is
reported first, then an occupied type entry, and only when both entries are
vacant is the descriptor pushed and both maps updated with its index.  The
returned index is the position of the pushed descriptor (the value the maps
record, which `PrefabDescriptorRegistry::register_aliased` stores in its uuid
map). -/
def RegistryInner.register_internal {T : Type} (r : RegistryInner T) (aliasName : String)
    (type_info : TypeId × String) (build : Unit → T) :
    RegistryInner T × Except RegistryError Nat :=
  match alookup type_info.1 r.typed, alookup aliasName r.named with
  | _, some _ => (r, .error (.aliasAlreadyRegistered aliasName))
  | some _, none => (r, .error (.typeAlreadyRegistered type_info.2))
  | none, none =>
      let i := r.contents.length
      ({ contents := r.contents ++ [build ()],
         named := (aliasName, i) :: r.named,
         typed := (type_info.1, i) :: r.typed }, .ok i)

/-- Model of the registry-facing content of a prefab descriptor
(`PrefabDescriptor` in `src/registry/prefab.rs`).  The function-pointer fields
`de`/`default`/`construct` are built from the registered type `T`; only the
stable uuid participates in the registry claims, so the descriptor keeps the
uuid and the name of the type the closures were built from. -/
structure PrefabDescriptor where
  uuid : Uuid
  builtFrom : String
  deriving Repr, DecidableEq

/-- Data of a Rust type parameter `T: PrefabData + TypeUuid + ...`: its
`TypeId`, its `type_name`, and its stable `TYPE_UUID`. -/
structure PrefabType where
  typeId : TypeId
  typeName : String
  uuid : Uuid
  deriving Repr, DecidableEq

/-- Model of `PrefabDescriptorRegistry`: the inner alias/type registry plus the
uuid-keyed `tagged` map. -/
structure PrefabDescriptorRegistry where
  registry : RegistryInner PrefabDescriptor
  tagged : List (Uuid × Nat)
  deriving Repr, DecidableEq

/-- Model of `Registry::empty` lifted to the prefab registry. -/
def PrefabDescriptorRegistry.empty : PrefabDescriptorRegistry :=
  { registry := { contents := [], named := [], typed := [] }, tagged := [] }

/-- Model of `PrefabDescriptorRegistry::find_by_name`. -/
def PrefabDescriptorRegistry.find_by_name (r : PrefabDescriptorRegistry) (name : String) :
    Option PrefabDescriptor :=
  r.registry.find_by_name name

/-- Model of `PrefabDescriptorRegistry::find_by_uuid`. -/
def PrefabDescriptorRegistry.find_by_uuid (r : PrefabDescriptorRegistry) (uuid : Uuid) :
    Option PrefabDescriptor :=
  (alookup uuid r.tagged).bind fun i => r.registry.contents.get? i

/-- Model of `PrefabDescriptorRegistry::register_aliased::<T>`: first the uuid
entry is consulted; when occupied registration fails with the uuid error and
nothing is mutated; when vacant the inner registry is asked to register, and
only on its success is the uuid map extended with the new index. -/
def PrefabDescriptorRegistry.register_aliased (r : PrefabDescriptorRegistry)
    (aliasName : String) (t : PrefabType) :
    PrefabDescriptorRegistry × Option RegistryError :=
  match alookup t.uuid r.tagged with
  | some _ => (r, some (.uuidAlreadyRegistered t.typeName))
  | none =>
      match r.registry.register_internal aliasName (t.typeId, t.typeName)
          (fun _ => { uuid := t.uuid, builtFrom := t.typeName }) with
      | (_, .error e) => (r, some e)
      | (r', .ok i) => ({ registry := r', tagged := (t.uuid, i) :: r.tagged }, none)

/-- Type data of `BlankPrefab` (src/data/data.rs): the blank prefab data type
with its literal stable uuid.  Its `TypeId` is an arbitrary but fixed tag. -/
def blankPrefabType : PrefabType :=
  { typeId := 0,
    typeName := "bevy_prefab::data::BlankPrefab",
    uuid := "3c603f24-9a89-45c3-8f4a-087a28f006df" }

/-- Model of `PrefabDescriptorRegistry::default`: an empty registry with
`BlankPrefab` registered under the alias `"Prefab"` (the `unwrap` in the
source succeeds, see the C10 theorem). -/
def PrefabDescriptorRegistry.defaultRegistry : PrefabDescriptorRegistry :=
  (PrefabDescriptorRegistry.empty.register_aliased "Prefab" blankPrefabType).1

/-! ## Component copy functions (src/registry/component.rs) -/

/-- View of a world restricted to one component type `T`: which entities carry
a `T` value.  `bevy`'s `World::get::<T>` and `EntityMut::insert` act on exactly
this view. -/
abbrev ComponentStore (α : Type) := List (Nat × α)

/-- Map insertion (`EntityMut::insert`, `HashMap::insert`): overwrite the
existing binding under the key or append a new one. -/
def cinsert {α β : Type} [DecidableEq α] (k : α) (v : β) :
    List (α × β) → List (α × β)
  | [] => [(k, v)]
  | (a, b) :: t => if a = k then (a, v) :: t else (a, b) :: cinsert k v t

/-- Model of the free function `copy::<T>`: read the source entity's record
(`unwrap` panics when the source lacks it, modelled as `Except.error`) and
insert a clone on the destination entity. -/
def copy {α : Type} [DecidableEq α] (from_world to_world : ComponentStore α)
    (from_entity to_entity : Nat) : Except String (ComponentStore α) :=
  match alookup from_entity from_world with
  | none => .error "called Option::unwrap on a None value"
  | some v => .ok (cinsert to_entity v to_world)

/-- Model of the free function `copy_without_overriding::<T>`: the body first
tests `to.contains::<T>()` and only inside that branch reads the source record
and inserts it; when the destination lacks the record nothing happens. -/
def copy_without_overriding {α : Type} [DecidableEq α]
    (from_world to_world : ComponentStore α) (from_entity to_entity : Nat) :
    Except String (ComponentStore α) :=
  if (alookup to_entity to_world).isSome then
    match alookup from_entity from_world with
    | none => .error "called Option::unwrap on a None value"
    | some v => .ok (cinsert to_entity v to_world)
  else
    .ok to_world

/-- Modelled from the spec: `copy_if_absent: same signature but no-op if dst
already has the record` — the behaviour the specification ascribes to
`copy_without_overriding`. -/
def copy_if_absent_spec {α : Type} [DecidableEq α]
    (from_world to_world : ComponentStore α) (from_entity to_entity : Nat) :
    Except String (ComponentStore α) :=
  if (alookup to_entity to_world).isSome then
    .ok to_world
  else
    match alookup from_entity from_world with
    | none => .error "called Option::unwrap on a None value"
    | some v => .ok (cinsert to_entity v to_world)

/-! ## Override mechanism (src/data/overrides.rs) -/

/-- Model of `bevy::math::Vec2` (component values are abstract scalars; only
copying and replacement happen to them). -/
structure Vec2 where
  x : Int
  y : Int
  deriving Repr, DecidableEq

/-- Model of `bevy::math::Vec3`. -/
structure Vec3 where
  x : Int
  y : Int
  z : Int
  deriving Repr, DecidableEq

/-- Model of `bevy::math::Vec4`. -/
structure Vec4 where
  x : Int
  y : Int
  z : Int
  w : Int
  deriving Repr, DecidableEq

/-- Model of `Vec2Override`: each axis optional. -/
structure Vec2Override where
  x : Option Int
  y : Option Int
  deriving Repr, DecidableEq

/-- Model of `Vec3Override`. -/
structure Vec3Override where
  x : Option Int
  y : Option Int
  z : Option Int
  deriving Repr, DecidableEq

/-- Model of `Vec4Override`. -/
structure Vec4Override where
  x : Option Int
  y : Option Int
  z : Option Int
  w : Option Int
  deriving Repr, DecidableEq

/-- Model of the `vector_data_override!` expansion of `apply_override` for
`Vec2Override`: for each axis, `if let Some(x) = self.x { target.x = x }`. -/
def Vec2Override.apply_override (o : Vec2Override) (target : Vec2) : Vec2 :=
  let target := match o.x with | some x => { target with x := x } | none => target
  let target := match o.y with | some y => { target with y := y } | none => target
  target

/-- Model of `apply_override` for `Vec3Override`. -/
def Vec3Override.apply_override (o : Vec3Override) (target : Vec3) : Vec3 :=
  let target := match o.x with | some x => { target with x := x } | none => target
  let target := match o.y with | some y => { target with y := y } | none => target
  let target := match o.z with | some z => { target with z := z } | none => target
  target

/-- Model of `apply_override` for `Vec4Override`. -/
def Vec4Override.apply_override (o : Vec4Override) (target : Vec4) : Vec4 :=
  let target := match o.x with | some x => { target with x := x } | none => target
  let target := match o.y with | some y => { target with y := y } | none => target
  let target := match o.z with | some z => { target with z := z } | none => target
  let target := match o.w with | some w => { target with w := w } | none => target
  target

/-- Reflected runtime value of one struct field.  The constructor together
with the `ty` tag of `prim` plays the role of the concrete Rust type that
`downcast_mut` checks: the ten numeric types, `Quat` and the colour types are
all whole-value primitives distinguished only by their type tag. -/
inductive FieldValue where
  | prim (ty : Nat) (v : Int)
  | vec2 (v : Vec2)
  | vec3 (v : Vec3)
  | vec4 (v : Vec4)
  deriving Repr, DecidableEq

/-- Decoded override for one field: a whole-value primitive override (the
`primitive_data_override!` instances) or a per-axis vector override. -/
inductive FieldOverride where
  | prim (ty : Nat) (v : Int)
  | vec2 (o : Vec2Override)
  | vec3 (o : Vec3Override)
  | vec4 (o : Vec4Override)
  deriving Repr, DecidableEq

/-- Model of `Override::apply_override` for leaf overrides: a successful
downcast replaces (primitives) or per-axis-patches (vectors) the target; a
failed downcast warns and leaves the target untouched. -/
def FieldOverride.apply_override : FieldOverride → FieldValue → FieldValue
  | .prim ty v, .prim tty tv => if ty = tty then .prim tty v else .prim tty tv
  | .prim _ _, t => t
  | .vec2 o, .vec2 t => .vec2 (o.apply_override t)
  | .vec2 _, t => t
  | .vec3 o, .vec3 t => .vec3 (o.apply_override t)
  | .vec3 _, t => t
  | .vec4 o, .vec4 t => .vec4 (o.apply_override t)
  | .vec4 _, t => t

/-- Model of `StructOverride`: decoded overrides keyed by field name.  Nested
struct overrides are not needed by the verified properties, so field
overrides are the leaf overrides above. -/
structure StructOverride where
  fields : List (String × FieldOverride)
  deriving Repr, DecidableEq

/-- Model of `StructOverride::apply_override`: iterate the target's fields in
order; a field whose name has an override gets it applied, every other field
is left as it is. -/
def StructOverride.apply_override (s : StructOverride)
    (target : List (String × FieldValue)) : List (String × FieldValue) :=
  target.map fun nv =>
    match alookup nv.1 s.fields with
    | some field_override => (nv.1, field_override.apply_override nv.2)
    | none => nv

/-- Model of `OverrideRegistry`, generic in the descriptor payload `D` (the
source stores an `OverrideDescriptor` built from the registered value type). -/
abbrev OverrideRegistryM (D : Type) := List (TypeId × D)

/-- Model of `OverrideRegistry::find_by_type_id`. -/
def OverrideRegistryM.find_by_type_id {D : Type} (r : OverrideRegistryM D)
    (type_id : TypeId) : Option D :=
  alookup type_id r

/-- Model of `OverrideRegistry::register::<K, T>`: `entry(K).or_insert_with`
builds and stores the descriptor only when the key is vacant; an occupied
entry is left untouched with no error or warning. -/
def OverrideRegistryM.register {D : Type} (r : OverrideRegistryM D)
    (k : TypeId) (build : Unit → D) : OverrideRegistryM D :=
  match alookup k r with
  | some _ => r
  | none => (k, build ()) :: r

/-! ## Scene-sequence decoding (src/de/instance.rs) -/

/-- Decode errors produced while decoding a scene sequence (the `de::Error`
values raised in `src/de/instance.rs`).  `rngExhausted` is a model artefact:
the source draws from `ThreadRng`, an inexhaustible stream, while the model
consumes a finite list of draws; the constructor makes the embedding total
and is unreachable whenever the supplied stream is long enough. -/
inductive DecodeErr where
  | conflictingId (id : Nat)
  | missingField (f : String)
  | customMsg (m : String)
  | rngExhausted
  deriving Repr, DecidableEq

/-- Model of `IdValidation`: the random stream (the pending outputs of
`ThreadRng::next_u32`), the insertion set `collection`, and a ghost `log`
recording every id that entered the set, in order, flagged with whether it was
generated (`true`) or explicitly declared (`false`).  The log does not affect
control flow. -/
structure IdValidation where
  rng : List Nat
  collection : List Nat
  log : List (Bool × Nat)
  deriving Repr, DecidableEq

/-- Model of `IdValidation::validate`: `HashSet::insert`, returning whether
the id was newly inserted.  The `gen` flag is ghost instrumentation for the
log only. -/
def IdValidation.validate (s : IdValidation) (gen : Bool) (id : Nat) :
    Bool × IdValidation :=
  if id ∈ s.collection then (false, s)
  else (true, { s with collection := id :: s.collection, log := s.log ++ [(gen, id)] })

/-- Loop body of `generate_unique`, structurally recursive on the remaining
random stream (a rejected draw leaves the validation state unchanged, so only
the stream advances). -/
def generate_unique_go (c : List Nat) (l : List (Bool × Nat)) :
    List Nat → Except DecodeErr (Nat × IdValidation)
  | [] => .error .rngExhausted
  | r :: rest =>
      match IdValidation.validate ⟨rest, c, l⟩ true r with
      | (true, s') => .ok (r, s')
      | (false, _) => generate_unique_go c l rest

/-- Model of `IdValidation::generate_unique`: draw random ids until `validate`
accepts one (the accepted id is therefore also inserted into the set). -/
def IdValidation.generate_unique (s : IdValidation) : Except DecodeErr (Nat × IdValidation) :=
  generate_unique_go s.collection s.log s.rng

/-- Decoder-side view of a prefab descriptor (the snapshot consumed by
`src/de/instance.rs`): whether a source document is required, the expected
type uuid, and the identity of the construct function pointer. -/
structure DePrefabDescriptor where
  source_prefab_required : Bool
  uuid : Uuid
  construct : Nat
  deriving Repr, DecidableEq

/-- Parsed shape of one `scene` element: an `Entity` element or a
prefab-instance element tagged by a registered template alias.  Component
lists, transforms, parents and override payloads do not interact with id
validation or the source checks and are omitted. -/
inductive SceneElem where
  | entity (id : Option Nat)
  | prefabInstance (descriptor : DePrefabDescriptor) (id : Option Nat)
      (source : Option Nat)
  deriving Repr, DecidableEq

/-- Explicitly declared author id of a scene element, when present. -/
def SceneElem.author_id : SceneElem → Option Nat
  | .entity i => i
  | .prefabInstance _ i _ => i

/-- State threaded through the scene-sequence decode: the id validation
state, the author-id-to-template-entity map, and the next fresh template
entity (the world's spawn counter). -/
structure DecodeState where
  ids : IdValidation
  source_to_prefab : List (Nat × Nat)
  world_next : Nat
  deriving Repr, DecidableEq

/-- Tail of `PrefabInstanceDeserializer::visit_map` after the field loop: the
id is the declared one or a generated one, and the author-id map records the
blank entity under it. -/
def decodePrefabFinish (st : DecodeState) (declared : Option Nat)
    (blank_entity : Nat) : DecodeState × Option DecodeErr :=
  match declared with
  | some i =>
      ({ st with source_to_prefab := cinsert i blank_entity st.source_to_prefab }, none)
  | none =>
      match st.ids.generate_unique with
      | .error e => (st, some e)
      | .ok (i, ids') =>
          ({ st with
              ids := ids',
              source_to_prefab := cinsert i blank_entity st.source_to_prefab }, none)

/-- Source-requirement checks of `PrefabInstanceDeserializer::visit_map`,
performed after the field loop: a document-backed template must carry a
`source` field, a procedural-only template must not. -/
def decodePrefabChecks (st : DecodeState) (descriptor : DePrefabDescriptor)
    (declared : Option Nat) (source : Option Nat) (blank_entity : Nat) :
    DecodeState × Option DecodeErr :=
  if descriptor.source_prefab_required then
    if source.isNone then (st, some (.missingField "source"))
    else decodePrefabFinish st declared blank_entity
  else
    if source.isSome then (st, some (.customMsg "source isn't used by prefab"))
    else decodePrefabFinish st declared blank_entity

/-- Model of `PrefabInstanceDeserializer::visit_map`: spawn the blank nested
instance entity (consuming the spawn counter), validate the declared id on
sight during the field loop (rejection names the conflicting id), then run
the source checks and finish. -/
def decodePrefabElem (st : DecodeState) (descriptor : DePrefabDescriptor)
    (declared : Option Nat) (source : Option Nat) : DecodeState × Option DecodeErr :=
  match declared with
  | some i =>
      match st.ids.validate false i with
      | (false, ids') =>
          ({ st with ids := ids', world_next := st.world_next + 1 },
           some (.conflictingId i))
      | (true, ids') =>
          decodePrefabChecks { st with ids := ids', world_next := st.world_next + 1 }
            descriptor (some i) source st.world_next
  | none =>
      decodePrefabChecks { st with world_next := st.world_next + 1 }
        descriptor none source st.world_next

/-- Model of `EntityInstanceDeserializer::visit_map`: spawn the entity,
validate the declared id on sight, then bind the declared-or-generated id to
the entity. -/
def decodeEntityElem (st : DecodeState) (declared : Option Nat) :
    DecodeState × Option DecodeErr :=
  match declared with
  | some i =>
      match st.ids.validate false i with
      | (false, ids') =>
          ({ st with ids := ids', world_next := st.world_next + 1 },
           some (.conflictingId i))
      | (true, ids') =>
          ({ st with
              ids := ids',
              source_to_prefab := cinsert i st.world_next st.source_to_prefab,
              world_next := st.world_next + 1 }, none)
  | none =>
      match st.ids.generate_unique with
      | .error e => ({ st with world_next := st.world_next + 1 }, some e)
      | .ok (i, ids') =>
          ({ st with
              ids := ids',
              source_to_prefab := cinsert i st.world_next st.source_to_prefab,
              world_next := st.world_next + 1 }, none)

/-- Dispatch of `IdentifiedInstance::visit_enum` on the element tag. -/
def decodeElem (st : DecodeState) : SceneElem → DecodeState × Option DecodeErr
  | .entity declared => decodeEntityElem st declared
  | .prefabInstance descriptor declared source =>
      decodePrefabElem st descriptor declared source

/-- Model of `IdentifiedInstanceSeq::visit_seq`: decode elements in order,
stopping at the first error.  The state reached so far is kept, mirroring the
world mutations the Rust decoder has already performed when it fails. -/
def decodeSeq (st : DecodeState) : List SceneElem → DecodeState × Option DecodeErr
  | [] => (st, none)
  | e :: rest =>
      match decodeElem st e with
      | (st', none) => decodeSeq st' rest
      | (st', some err) => (st', some err)

/-- Initial decode state: a fresh `IdValidation::empty` over the given random
stream, no bound ids, an empty template world. -/
def initDecodeState (rng : List Nat) : DecodeState :=
  { ids := { rng := rng, collection := [], log := [] },
    source_to_prefab := [], world_next := 0 }

/-- Ids in the validation log, in insertion order. -/
def logIds (s : IdValidation) : List Nat :=
  s.log.map Prod.snd

/-- Ids the decoder generated (ghost projection of the log). -/
def generatedIds (st : DecodeState) : List Nat :=
  st.ids.log.filterMap fun p => if p.1 then some p.2 else none

/-- Explicitly declared author ids of a document, in order. -/
def declaredIds (doc : List SceneElem) : List Nat :=
  doc.filterMap SceneElem.author_id

/-! ## Instantiation scheduler (src/manager.rs)

The manager snapshot references a few component declarations whose defining
module is a `lib.rs` revision not present under `src/` (`PrefabError`,
`PrefabErrorTag`, `PrefabTypeUuid`, `PrefabTransformOverride`); their shapes
are fully determined by their uses in `src/manager.rs` and
`src/de/instance.rs` and by the spec's data model (Error Marker carrying a
type-mismatch reason; optional partial transform override). -/

/-- Reason carried by the error marker (`PrefabError` as used in
`src/manager.rs`: `PrefabError::WrongExpectedSourcePrefab`). -/
inductive PrefabErrReason where
  | wrongExpectedSourcePrefab
  deriving Repr, DecidableEq

/-- Model of `PrefabTransformOverride`: each transform part optional (the
parts are abstracted to scalars — they are only moved, never computed with). -/
structure PrefabTransformOverride where
  translation : Option Int
  rotation : Option Int
  scale : Option Int
  deriving Repr, DecidableEq

/-- Model of `bevy`'s `Transform` at the granularity the manager uses it. -/
structure TransformM where
  translation : Int
  rotation : Int
  scale : Int
  deriving Repr, DecidableEq

/-- State of one entity: the prefab-system components as explicit optional
fields (a `none`/`false` field means the component is absent) plus the generic
user components keyed by `TypeId`.  Construct functions are identified by a
tag interpreted through the `constructs` environment of the scheduler. -/
structure EntityState where
  handle : Option Nat := none
  notInstantiated : Bool := false
  typeUuid : Option Uuid := none
  errorTag : Option PrefabErrReason := none
  construct : Option Nat := none
  transformOverride : Option PrefabTransformOverride := none
  parent : Option Nat := none
  transform : Option TransformM := none
  globalTransform : Bool := false
  children : Bool := false
  comps : List (TypeId × Int) := []
  deriving Repr, DecidableEq

/-- Association-list update: overwrite the value under an existing key, leave
the list unchanged when the key is absent. -/
def aupdate {α β : Type} [DecidableEq α] (k : α) (v : β) :
    List (α × β) → List (α × β)
  | [] => []
  | (a, b) :: t => if a = k then (a, v) :: t else (a, b) :: aupdate k v t

/-- Model of `bevy`'s `World` as used by the manager: a spawn counter and the
live entities with their state. -/
structure MWorld where
  next : Nat
  ents : List (Nat × EntityState)
  deriving Repr, DecidableEq

/-- Component access on an entity (`World::get` / `EntityMut`); a missing
entity reads as the blank state. -/
def MWorld.get (w : MWorld) (e : Nat) : EntityState :=
  (alookup e w.ents).getD {}

/-- Write an entity's state.  Writing to a missing entity is a no-op; the
scheduler only ever writes to queue roots and freshly spawned entities, which
exist (`entity_mut` would panic otherwise). -/
def MWorld.set (w : MWorld) (e : Nat) (s : EntityState) : MWorld :=
  { w with ents := aupdate e s w.ents }

/-- Model of `World::spawn`: a fresh blank entity under the next id. -/
def MWorld.spawn (w : MWorld) : Nat × MWorld :=
  (w.next, { next := w.next + 1, ents := w.ents ++ [(w.next, {})] })

/-- Model of a loaded `Prefab` asset as the manager consumes it: the
designated root entity of its template world, the base transform, the data's
type uuid, whether `apply_overrides_and_construct_instance` on its data
succeeds (constructor effects are abstracted to success/failure — they run
arbitrary user code), and the template world in archetype-iteration order. -/
structure MPrefab where
  root_entity : Nat
  transform : TransformM
  dataUuid : Uuid
  dataConstructOk : Bool
  pworld : List (Nat × EntityState)
  deriving Repr, DecidableEq

/-- Copy of one optional component under a descriptor copy function.
`without_overriding = false` is the plain `copy::<T>` (clone and insert);
`without_overriding = true` is `copy_without_overriding::<T>`, which — as
written in the source — inserts only when the destination already contains
the component. -/
def copyOptField {β : Type} (without_overriding : Bool) (src dst : Option β) : Option β :=
  match src with
  | none => dst
  | some v => if without_overriding then (if dst.isSome then some v else dst) else some v

/-- Copy of one marker (unit) component under a descriptor copy function. -/
def copyFlagField (without_overriding : Bool) (src dst : Bool) : Bool :=
  if src then (if without_overriding then dst else true) else dst

/-- Copy of the generic user components: each component type present on the
template entity must have a registered descriptor, else the manager hits its
`panic!("prefab component not registered")`. -/
def copyUserComps (without_overriding : Bool) (reg : List TypeId) :
    List (TypeId × Int) → List (TypeId × Int) → Except String (List (TypeId × Int))
  | [], dst => .ok dst
  | (t, v) :: rest, dst =>
      if t ∈ reg then
        let dst' :=
          if without_overriding then
            (if (alookup t dst).isSome then cinsert t v dst else dst)
          else cinsert t v dst
        copyUserComps without_overriding reg rest dst'
      else .error "prefab component not registered"

/-- Copy every component present on a template entity onto a destination
entity, applying the chosen descriptor copy function componentwise (the
prefab-system components are registered with `register_private` by the app
bootstrap, so their descriptors always exist). -/
def copyEntityComponents (without_overriding : Bool) (reg : List TypeId)
    (src dst : EntityState) : Except String EntityState :=
  match copyUserComps without_overriding reg src.comps dst.comps with
  | .error e => .error e
  | .ok comps' =>
      .ok { handle := copyOptField without_overriding src.handle dst.handle,
            notInstantiated := copyFlagField without_overriding src.notInstantiated dst.notInstantiated,
            typeUuid := copyOptField without_overriding src.typeUuid dst.typeUuid,
            errorTag := copyOptField without_overriding src.errorTag dst.errorTag,
            construct := copyOptField without_overriding src.construct dst.construct,
            transformOverride := copyOptField without_overriding src.transformOverride dst.transformOverride,
            parent := copyOptField without_overriding src.parent dst.parent,
            transform := copyOptField without_overriding src.transform dst.transform,
            globalTransform := copyFlagField without_overriding src.globalTransform dst.globalTransform,
            children := copyFlagField without_overriding src.children dst.children,
            comps := comps' }

/-- Model of the copy loop of `prefab_spawner`: walk the template world; the
designated root maps onto the pending instance root and is copied with
`copy_without_overriding`, every other template entity maps onto a fresh (or
already mapped) instance entity copied with plain `copy`. -/
def copyPrefabEntities (reg : List TypeId) (prefab_root root_entity : Nat) :
    List (Nat × EntityState) → MWorld → List (Nat × Nat) →
    Except String (MWorld × List (Nat × Nat))
  | [], w, prefab_to_instance => .ok (w, prefab_to_instance)
  | (pe, ps) :: rest, w, prefab_to_instance =>
      if pe = prefab_root then
        let prefab_to_instance := cinsert pe root_entity prefab_to_instance
        match copyEntityComponents true reg ps (w.get root_entity) with
        | .error e => .error e
        | .ok dst' =>
            copyPrefabEntities reg prefab_root root_entity rest
              (w.set root_entity dst') prefab_to_instance
      else
        match alookup pe prefab_to_instance with
        | some ie =>
            match copyEntityComponents false reg ps (w.get ie) with
            | .error e => .error e
            | .ok dst' =>
                copyPrefabEntities reg prefab_root root_entity rest
                  (w.set ie dst') prefab_to_instance
        | none =>
            let (ie, w') := w.spawn
            let prefab_to_instance := cinsert pe ie prefab_to_instance
            match copyEntityComponents false reg ps (w'.get ie) with
            | .error e => .error e
            | .ok dst' =>
                copyPrefabEntities reg prefab_root root_entity rest
                  (w'.set ie dst') prefab_to_instance

/-- Model of `ComponentEntityMapperRegistry::map_entity_components` on one
instance entity: `Parent` is the registered mappable component, and a handle
missing from the map is the `MapEntitiesError` the manager unwraps. -/
def mapEntityComponents (prefab_to_instance : List (Nat × Nat)) (s : EntityState) :
    Except String EntityState :=
  match s.parent with
  | none => .ok s
  | some p =>
      match alookup p prefab_to_instance with
      | some q => .ok { s with parent := some q }
      | none => .error "called Result::unwrap on an Err value"

/-- Model of the post-copy loop: remap every mapped instance entity's
components into instance space and parent the parentless ones under the
instantiated root. -/
def mapAndParentInstances (root_entity : Nat) (prefab_to_instance : List (Nat × Nat)) :
    List Nat → MWorld → Except String MWorld
  | [], w => .ok w
  | ie :: rest, w =>
      match mapEntityComponents prefab_to_instance (w.get ie) with
      | .error e => .error e
      | .ok s' =>
          let s'' := if s'.parent = none then { s' with parent := some root_entity } else s'
          mapAndParentInstances root_entity prefab_to_instance rest (w.set ie s'')

/-- Overlay of the instance's transform override onto the template's base
transform (`prefab_spawner`, transform section). -/
def applyTransformOverrides (base : TransformM) (o : PrefabTransformOverride) : TransformM :=
  let base := match o.translation with | some v => { base with translation := v } | none => base
  let base := match o.rotation with | some v => { base with rotation := v } | none => base
  let base := match o.scale with | some v => { base with scale := v } | none => base
  base

/-- Root finalisation of `prefab_spawner`: clear the pending tag, take and
overlay the transform override, insert the composed transform bundle, then
run the stored procedural constructor — or the data's
`apply_overrides_and_construct_instance` — and `unwrap` the result, so a
constructor failure is a panic (`Except.error`). -/
def finishRoot (constructs : Nat → Bool) (prefab : MPrefab) (w : MWorld)
    (root_entity : Nat) : Except String MWorld :=
  let root := w.get root_entity
  let root := { root with notInstantiated := false }
  let composed :=
    match root.transformOverride with
    | some o => applyTransformOverrides prefab.transform o
    | none => prefab.transform
  let root := { root with
                transformOverride := none,
                globalTransform := true,
                transform := some composed,
                children := true }
  let w := w.set root_entity root
  match root.construct with
  | some f =>
      if constructs f then .ok w else .error "called Result::unwrap on an Err value"
  | none =>
      if prefab.dataConstructOk then .ok w
      else .error "called Result::unwrap on an Err value"

/-- Expansion of one pending node whose asset is loaded and type-validated:
copy the template world over, remap and parent the instances, finalise the
root. -/
def expandItem (constructs : Nat → Bool) (reg : List TypeId) (prefab : MPrefab)
    (w : MWorld) (root_entity : Nat) : Except String MWorld :=
  match copyPrefabEntities reg prefab.root_entity root_entity prefab.pworld w [] with
  | .error e => .error e
  | .ok (w', prefab_to_instance) =>
      match mapAndParentInstances root_entity prefab_to_instance
          (prefab_to_instance.map Prod.snd) w' with
      | .error e => .error e
      | .ok w'' => finishRoot constructs prefab w'' root_entity

/-- Processing of one popped `Instantiate(root_entity, source_prefab)` item:
an unloaded asset blacklists the node for this call; a type-uuid mismatch
removes the pending tag, attaches the error marker and stops (terminal);
otherwise the node is expanded. -/
def processItem (constructs : Nat → Bool) (reg : List TypeId)
    (assets : Nat → Option MPrefab) (w : MWorld) (blacklist : List Nat)
    (root_entity source_prefab : Nat) : Except String (MWorld × List Nat) :=
  match assets source_prefab with
  | none => .ok (w, root_entity :: blacklist)
  | some prefab =>
      let root := w.get root_entity
      match root.typeUuid with
      | some uuid =>
          if prefab.dataUuid ≠ uuid then
            let root' := { root with
                           notInstantiated := false,
                           errorTag := some .wrongExpectedSourcePrefab }
            .ok (w.set root_entity root', blacklist)
          else
            match expandItem constructs reg prefab w root_entity with
            | .error e => .error e
            | .ok w' => .ok (w', blacklist)
      | none =>
          match expandItem constructs reg prefab w root_entity with
          | .error e => .error e
          | .ok w' => .ok (w', blacklist)

/-- Drain of the work queue in pop order (the source pops from the back of
the `Vec`; the argument here is already reversed). -/
def drainPopped (constructs : Nat → Bool) (reg : List TypeId)
    (assets : Nat → Option MPrefab) :
    MWorld → List (Nat × Nat) → List Nat → Except String (MWorld × List Nat)
  | w, [], blacklist => .ok (w, blacklist)
  | w, (root_entity, source_prefab) :: rest, blacklist =>
      match processItem constructs reg assets w blacklist root_entity source_prefab with
      | .error e => .error e
      | .ok (w', blacklist') => drainPopped constructs reg assets w' rest blacklist'

/-- Model of the inner `while let Some(..) = prefabs_queue.pop()` loop. -/
def drainQueue (constructs : Nat → Bool) (reg : List TypeId)
    (assets : Nat → Option MPrefab) (w : MWorld) (queue : List (Nat × Nat))
    (blacklist : List Nat) : Except String (MWorld × List Nat) :=
  drainPopped constructs reg assets w queue.reverse blacklist

/-- Model of `enqueue_prefab_not_instantiated`: every entity carrying both a
prefab handle and the pending tag. -/
def enqueue_prefab_not_instantiated (w : MWorld) : List (Nat × Nat) :=
  w.ents.filterMap fun es =>
    match es.2.handle, es.2.notInstantiated with
    | some h, true => some (es.1, h)
    | _, _ => none

/-- Model of the outer loop of `prefab_spawner`: drain the queue, re-scan for
newly created pending nodes, drop blacklisted ones, and loop until the queue
is empty.  The fuel bounds the number of outer iterations (the source loop
need not terminate, e.g. on cyclic prefabs); exhausted fuel stops with the
world reached so far. -/
def spawnerLoop (constructs : Nat → Bool) (reg : List TypeId)
    (assets : Nat → Option MPrefab) :
    Nat → MWorld → List (Nat × Nat) → List Nat → Except String MWorld
  | 0, w, _, _ => .ok w
  | fuel + 1, w, queue, blacklist =>
      match drainQueue constructs reg assets w queue blacklist with
      | .error e => .error e
      | .ok (w', blacklist') =>
          let queue' := (enqueue_prefab_not_instantiated w').filter
            fun item => decide (item.1 ∉ blacklist')
          if queue' = [] then .ok w'
          else spawnerLoop constructs reg assets fuel w' queue' blacklist'

/-- Model of `prefab_spawner`: run the loop with an empty blacklist. -/
def prefab_spawner (constructs : Nat → Bool) (reg : List TypeId)
    (assets : Nat → Option MPrefab) (fuel : Nat) (w : MWorld)
    (queue : List (Nat × Nat)) : Except String MWorld :=
  spawnerLoop constructs reg assets fuel w queue []

/-- Model of one `prefab_managing_system` invocation: collect the pending
nodes; when none exist return at once, else run the spawner on them. -/
def prefab_managing_pass (constructs : Nat → Bool) (reg : List TypeId)
    (assets : Nat → Option MPrefab) (fuel : Nat) (w : MWorld) :
    Except String MWorld :=
  let queue := enqueue_prefab_not_instantiated w
  if queue = [] then .ok w
  else prefab_spawner constructs reg assets fuel w queue

/-! ## Claim theorems -/

/-- C1: the claim states `copy_without_overriding` is a no-op when the
destination already has the record and copies it otherwise.  The code as
written does the opposite: with the source record `7` on node `0` and a
destination node `1` without the record, nothing is copied, while a
destination that already holds `3` is overwritten with `7`; the spec-side
`copy_if_absent` behaves the other way around on the same inputs. -/
theorem c1_copy_without_overriding_inverted :
    copy_without_overriding (α := Int) [(0, 7)] [] 0 1 = .ok [] ∧
    copy_without_overriding (α := Int) [(0, 7)] [(1, 3)] 0 1 = .ok [(1, 7)] ∧
    copy_if_absent_spec (α := Int) [(0, 7)] [] 0 1 = .ok [(1, 7)] ∧
    copy_if_absent_spec (α := Int) [(0, 7)] [(1, 3)] 0 1 = .ok [(1, 3)] :=
  ⟨rfl, rfl, rfl, rfl⟩

/-- C2: the claim states a constructor failure during a scheduling pass is a
recoverable, logged error.  The manager instead `unwrap`s the constructor
result, so the pass panics: a single pending node whose stored procedural
constructor fails (first conjunct), or whose data constructor fails (second
conjunct), makes the whole pass abort with the unwrap panic. -/
theorem c2_constructor_failure_panics :
    prefab_managing_pass (fun _ => false) []
        (fun h => if h = 1 then
          some { root_entity := 9, transform := ⟨0, 0, 0⟩, dataUuid := "u",
                 dataConstructOk := false, pworld := [] } else none) 2
        { next := 1,
          ents := [(0, { handle := some 1, notInstantiated := true, construct := some 0 })] }
      = .error "called Result::unwrap on an Err value" ∧
    prefab_managing_pass (fun _ => false) []
        (fun h => if h = 1 then
          some { root_entity := 9, transform := ⟨0, 0, 0⟩, dataUuid := "u",
                 dataConstructOk := false, pworld := [] } else none) 2
        { next := 1, ents := [(0, { handle := some 1, notInstantiated := true })] }
      = .error "called Result::unwrap on an Err value" :=
  ⟨rfl, rfl⟩

/-- C9: registering an override descriptor under an already-present key type
leaves the registry unchanged with no error, the first registered descriptor
wins, and registering the same key twice equals registering it once. -/
theorem c9_override_register_first_wins {D : Type} (r : OverrideRegistryM D)
    (k : TypeId) (build build' : Unit → D) :
    OverrideRegistryM.register (OverrideRegistryM.register r k build) k build' =
      OverrideRegistryM.register r k build ∧
    ((OverrideRegistryM.find_by_type_id r k).isSome →
      OverrideRegistryM.register r k build = r) ∧
    OverrideRegistryM.find_by_type_id (OverrideRegistryM.register r k build) k =
      some ((OverrideRegistryM.find_by_type_id r k).getD (build ())) := by
  unfold OverrideRegistryM.register OverrideRegistryM.find_by_type_id
  cases h : alookup k r with
  | some d => simp [h]
  | none => simp [h]

/-- Witness for C9 at a concrete registry: key `7` is occupied by descriptor
`1`, so registering is the identity and repeated registration collapses. -/
theorem c9_override_register_first_wins_witness :
    OverrideRegistryM.register
        (OverrideRegistryM.register ([(7, 1)] : OverrideRegistryM Nat) 7 fun _ => 2) 7
        (fun _ => 3) =
      OverrideRegistryM.register ([(7, 1)] : OverrideRegistryM Nat) 7 (fun _ => 2) ∧
    OverrideRegistryM.register ([(7, 1)] : OverrideRegistryM Nat) 7 (fun _ => 2) = [(7, 1)] := by
  have h := c9_override_register_first_wins ([(7, 1)] : OverrideRegistryM Nat) 7
    (fun _ => 2) (fun _ => 3)
  exact ⟨h.1, h.2.1 (by decide)⟩

/-- C5: registration on the prefab descriptor registry fails with a distinct
error for an occupied uuid, an occupied alias and an occupied type, and every
failing registration leaves the whole registry untouched. -/
theorem c5_registration_errors_distinct_atomic (r : PrefabDescriptorRegistry)
    (aliasName : String) (t : PrefabType) :
    ((alookup t.uuid r.tagged).isSome →
      (r.register_aliased aliasName t).2 = some (.uuidAlreadyRegistered t.typeName)) ∧
    (alookup t.uuid r.tagged = none → (alookup aliasName r.registry.named).isSome →
      (r.register_aliased aliasName t).2 = some (.aliasAlreadyRegistered aliasName)) ∧
    (alookup t.uuid r.tagged = none → alookup aliasName r.registry.named = none →
      (alookup t.typeId r.registry.typed).isSome →
      (r.register_aliased aliasName t).2 = some (.typeAlreadyRegistered t.typeName)) ∧
    ((r.register_aliased aliasName t).2.isSome → (r.register_aliased aliasName t).1 = r) := by
  unfold PrefabDescriptorRegistry.register_aliased RegistryInner.register_internal
  rcases h1 : alookup t.uuid r.tagged with _ | i1
  · rcases h2 : alookup aliasName r.registry.named with _ | i2
    · rcases h3 : alookup t.typeId r.registry.typed with _ | i3
      · simp [h2, h3]
      · simp [h2, h3]
    · rcases h3 : alookup t.typeId r.registry.typed with _ | i3 <;> simp [h2, h3]
  · simp

/-- Witness for C5: re-registering `BlankPrefab` on the default registry hits
the occupied-uuid error and the registry stays exactly as it was. -/
theorem c5_registration_errors_distinct_atomic_witness :
    (PrefabDescriptorRegistry.defaultRegistry.register_aliased "Blank" blankPrefabType).2 =
      some (.uuidAlreadyRegistered blankPrefabType.typeName) ∧
    (PrefabDescriptorRegistry.defaultRegistry.register_aliased "Blank" blankPrefabType).1 =
      PrefabDescriptorRegistry.defaultRegistry := by
  have h := c5_registration_errors_distinct_atomic
    PrefabDescriptorRegistry.defaultRegistry "Blank" blankPrefabType
  refine ⟨h.1 (by decide), h.2.2.2 ?_⟩
  rw [h.1 (by decide)]
  rfl

/-- C10: a freshly constructed template descriptor registry already binds the
alias `"Prefab"` to the blank prefab descriptor, and any registration reusing
that alias, the blank type, or the blank uuid fails with a collision error. -/
theorem c10_default_registry_prefab_alias (aliasName : String) (t : PrefabType)
    (h : t.uuid = blankPrefabType.uuid ∨ t.typeId = blankPrefabType.typeId ∨
      aliasName = "Prefab") :
    PrefabDescriptorRegistry.defaultRegistry.find_by_name "Prefab" =
      some { uuid := blankPrefabType.uuid, builtFrom := blankPrefabType.typeName } ∧
    (PrefabDescriptorRegistry.defaultRegistry.register_aliased aliasName t).2.isSome := by
  have hd : PrefabDescriptorRegistry.defaultRegistry =
      { registry :=
          { contents := [{ uuid := blankPrefabType.uuid, builtFrom := blankPrefabType.typeName }],
            named := [("Prefab", 0)],
            typed := [(blankPrefabType.typeId, 0)] },
        tagged := [(blankPrefabType.uuid, 0)] } := by rfl
  refine ⟨by rfl, ?_⟩
  rw [hd]
  unfold PrefabDescriptorRegistry.register_aliased RegistryInner.register_internal
  rcases h with h | h | h <;>
    simp [alookup, h, blankPrefabType] <;>
    split_ifs <;>
    simp

/-- Witness for C10: registering a fresh type under the occupied alias
`"Prefab"` collides. -/
theorem c10_default_registry_prefab_alias_witness :
    PrefabDescriptorRegistry.defaultRegistry.find_by_name "Prefab" =
      some { uuid := blankPrefabType.uuid, builtFrom := blankPrefabType.typeName } ∧
    (PrefabDescriptorRegistry.defaultRegistry.register_aliased "Prefab"
      { typeId := 1, typeName := "Lamp", uuid := "u-lamp" }).2.isSome :=
  c10_default_registry_prefab_alias "Prefab"
    { typeId := 1, typeName := "Lamp", uuid := "u-lamp" } (Or.inr (Or.inr rfl))

/-- Fields whose name carries no override are untouched by
`StructOverride::apply_override`. -/
theorem alookup_apply_override_of_not_overridden (s : StructOverride)
    (target : List (String × FieldValue)) (n : String)
    (hn : alookup n s.fields = none) :
    alookup n (s.apply_override target) = alookup n target := by
  induction target with
  | nil => rfl
  | cons hd tl ih =>
      obtain ⟨m, v⟩ := hd
      by_cases hm : m = n
      · subst hm
        simp [StructOverride.apply_override, alookup, hn]
      · rcases hfo : alookup m s.fields with _ | fo <;>
          simpa [StructOverride.apply_override, alookup, hm, hfo] using ih

/-- C8: an override patch specifying only field `a` rewrites exactly that
field of a two-field record; the primitive overrides replace whole values of
the matching type; the vector overrides rewrite exactly the supplied axes;
and in general a field with no override keeps its base value. -/
theorem c8_override_precedence (a b : String) (ov : FieldOverride) (d d2 : FieldValue)
    (ty : Nat) (v dv : Int) (o2 : Vec2Override) (t2 : Vec2)
    (o3 : Vec3Override) (t3 : Vec3) (o4 : Vec4Override) (t4 : Vec4)
    (s : StructOverride) (target : List (String × FieldValue)) (n : String)
    (hab : a ≠ b) (hn : alookup n s.fields = none) :
    StructOverride.apply_override ⟨[(a, ov)]⟩ [(a, d), (b, d2)] =
      [(a, ov.apply_override d), (b, d2)] ∧
    FieldOverride.apply_override (.prim ty v) (.prim ty dv) = .prim ty v ∧
    Vec2Override.apply_override o2 t2 = ⟨o2.x.getD t2.x, o2.y.getD t2.y⟩ ∧
    Vec3Override.apply_override o3 t3 = ⟨o3.x.getD t3.x, o3.y.getD t3.y, o3.z.getD t3.z⟩ ∧
    Vec4Override.apply_override o4 t4 =
      ⟨o4.x.getD t4.x, o4.y.getD t4.y, o4.z.getD t4.z, o4.w.getD t4.w⟩ ∧
    alookup n (s.apply_override target) = alookup n target := by
  refine ⟨?_, ?_, ?_, ?_, ?_, alookup_apply_override_of_not_overridden s target n hn⟩
  · simp [StructOverride.apply_override, alookup, hab]
  · simp [FieldOverride.apply_override]
  · obtain ⟨x, y⟩ := o2
    cases x <;> cases y <;> simp [Vec2Override.apply_override]
  · obtain ⟨x, y, z⟩ := o3
    cases x <;> cases y <;> cases z <;> simp [Vec3Override.apply_override]
  · obtain ⟨x, y, z, w⟩ := o4
    cases x <;> cases y <;> cases z <;> cases w <;> simp [Vec4Override.apply_override]

/-- Witness for C8 at concrete fields: the patch `{a: 5}` onto
`{a: 1, b: 2}` yields `{a: 5, b: 2}`, only the supplied `x` axis of a vector
is rewritten, and the unspecified name `c` keeps its base binding. -/
theorem c8_override_precedence_witness :
    StructOverride.apply_override ⟨[("a", .prim 0 5)]⟩
        [("a", .prim 0 1), ("b", .prim 0 2)] =
      [("a", FieldOverride.apply_override (.prim 0 5) (.prim 0 1)), ("b", .prim 0 2)] ∧
    FieldOverride.apply_override (.prim 0 5) (.prim 0 1) = .prim 0 5 ∧
    Vec3Override.apply_override ⟨some 9, none, none⟩ ⟨1, 2, 3⟩ = ⟨9, 2, 3⟩ ∧
    alookup "c" (StructOverride.apply_override ⟨[("a", .prim 0 5)]⟩ [("c", .prim 0 7)]) =
      alookup "c" [("c", FieldValue.prim 0 7)] := by
  have h := c8_override_precedence "a" "b" (.prim 0 5) (.prim 0 1) (.prim 0 2)
    0 5 1 ⟨none, none⟩ ⟨0, 0⟩ ⟨some 9, none, none⟩ ⟨1, 2, 3⟩ ⟨none, none, none, none⟩
    ⟨0, 0, 0, 0⟩ ⟨[("a", .prim 0 5)]⟩ [("c", .prim 0 7)] "c" (by decide) (by decide)
  exact ⟨h.1, h.2.1, h.2.2.2.1, h.2.2.2.2.2⟩

/-! ### Supporting lemmas on the decoder -/

/-- Decoding a concatenation decodes the prefix and continues on the suffix
unless the prefix already failed. -/
theorem decodeSeq_append (st : DecodeState) (xs ys : List SceneElem) :
    decodeSeq st (xs ++ ys) =
      match decodeSeq st xs with
      | (st1, none) => decodeSeq st1 ys
      | (st1, some e) => (st1, some e) := by
  induction xs generalizing st with
  | nil => simp [decodeSeq]
  | cons x xs ih =>
      simp only [List.cons_append, decodeSeq]
      rcases h : decodeElem st x with ⟨st1, err⟩
      cases err <;> simp [ih]

/-- Characterisation of a successful `generate_unique`: the produced id was
not in the set, and it is recorded in the set and the ghost log. -/
theorem generate_unique_ok (rng c : List Nat) (l : List (Bool × Nat)) (i : Nat)
    (s' : IdValidation)
    (h : IdValidation.generate_unique ⟨rng, c, l⟩ = .ok (i, s')) :
    i ∉ c ∧ s'.collection = i :: c ∧ s'.log = l ++ [(true, i)] := by
  rw [IdValidation.generate_unique] at h
  induction rng with
  | nil => simp [generate_unique_go] at h
  | cons r rest ih =>
      rw [generate_unique_go] at h
      by_cases hr : r ∈ c
      · simp only [IdValidation.validate, if_pos hr] at h
        exact ih h
      · simp only [IdValidation.validate, if_neg hr] at h
        obtain ⟨hi, hs⟩ := by
          simpa using h
        subst hi
        subst hs
        exact ⟨hr, rfl, rfl⟩

/-- Invariant of the id-validation state: the logged ids are pairwise
distinct and all of them are in the insertion set. -/
def IdInv (s : IdValidation) : Prop :=
  (logIds s).Nodup ∧ ∀ x ∈ logIds s, x ∈ s.collection

/-- Inserting an id that is not yet in the set preserves the id invariant,
for any rng state and ghost flag. -/
theorem IdInv_insert (rng rng' c : List Nat) (l : List (Bool × Nat)) (gen : Bool)
    (id : Nat) (h : IdInv ⟨rng, c, l⟩) (hid : id ∉ c) :
    IdInv ⟨rng', id :: c, l ++ [(gen, id)]⟩ := by
  obtain ⟨h1, h2⟩ := h
  simp only [logIds] at h1 h2
  constructor
  · simp only [logIds, List.map_append, List.map_cons, List.map_nil]
    refine List.Nodup.append h1 (List.nodup_singleton id) ?_
    intro x hx hx'
    rw [List.mem_singleton] at hx'
    subst hx'
    exact hid (h2 x hx)
  · intro x hx
    simp only [logIds, List.map_append, List.map_cons, List.map_nil] at hx
    rcases List.mem_append.mp hx with hx | hx
    · exact List.mem_cons_of_mem _ (h2 x hx)
    · rw [List.mem_singleton] at hx
      subst hx
      exact List.mem_cons_self _ _

/-- `validate` preserves the id invariant. -/
theorem validate_IdInv (s : IdValidation) (gen : Bool) (id : Nat) (h : IdInv s) :
    IdInv (s.validate gen id).2 := by
  obtain ⟨rng, c, l⟩ := s
  unfold IdValidation.validate
  by_cases hid : id ∈ c
  · simpa [hid] using h
  · simpa [hid] using IdInv_insert rng rng c l gen id h hid

/-- A successful `generate_unique` preserves the id invariant. -/
theorem generate_unique_IdInv (s s' : IdValidation) (i : Nat) (h : IdInv s)
    (hok : s.generate_unique = .ok (i, s')) : IdInv s' := by
  obtain ⟨rng, c, l⟩ := s
  obtain ⟨hni, hc, hl⟩ := generate_unique_ok rng c l i s' hok
  obtain ⟨rng', c', l'⟩ := s'
  simp only at hc hl
  subst hc
  subst hl
  exact IdInv_insert rng rng' c l true i h hni

/-- `decodePrefabFinish` preserves the id invariant (it only ever inserts a
freshly generated id). -/
theorem decodePrefabFinish_IdInv (st : DecodeState) (declared : Option Nat)
    (blank_entity : Nat) (h : IdInv st.ids) :
    IdInv ((decodePrefabFinish st declared blank_entity).1).ids := by
  unfold decodePrefabFinish
  cases declared with
  | some i => simpa using h
  | none =>
      cases hg : st.ids.generate_unique with
      | error e => simpa [hg] using h
      | ok p =>
          obtain ⟨i, ids'⟩ := p
          simpa [hg] using generate_unique_IdInv _ _ _ h hg

/-- `decodePrefabChecks` preserves the id invariant. -/
theorem decodePrefabChecks_IdInv (st : DecodeState) (descriptor : DePrefabDescriptor)
    (declared source : Option Nat) (blank_entity : Nat) (h : IdInv st.ids) :
    IdInv ((decodePrefabChecks st descriptor declared source blank_entity).1).ids := by
  unfold decodePrefabChecks
  by_cases h1 : descriptor.source_prefab_required <;> cases source <;>
    simp [h1, h, decodePrefabFinish_IdInv st declared blank_entity h]

/-- `decodeElem` preserves the id invariant whatever the outcome. -/
theorem decodeElem_IdInv (st : DecodeState) (e : SceneElem) (h : IdInv st.ids) :
    IdInv ((decodeElem st e).1).ids := by
  cases e with
  | entity declared =>
      cases declared with
      | none =>
          simp only [decodeElem, decodeEntityElem]
          cases hg : st.ids.generate_unique with
          | error e => simpa [hg] using h
          | ok p =>
              obtain ⟨i, ids'⟩ := p
              simpa [hg] using generate_unique_IdInv _ _ _ h hg
      | some i =>
          simp only [decodeElem, decodeEntityElem]
          have hv := validate_IdInv st.ids false i h
          rcases hmk : st.ids.validate false i with ⟨ok, ids'⟩
          rw [hmk] at hv
          cases ok <;> simpa [hmk] using hv
  | prefabInstance descriptor declared source =>
      cases declared with
      | none =>
          simp only [decodeElem, decodePrefabElem]
          exact decodePrefabChecks_IdInv _ descriptor none source _ h
      | some i =>
          simp only [decodeElem, decodePrefabElem]
          have hv := validate_IdInv st.ids false i h
          rcases hmk : st.ids.validate false i with ⟨ok, ids'⟩
          rw [hmk] at hv
          cases ok
          · simpa [hmk] using hv
          · simpa [hmk] using decodePrefabChecks_IdInv _ descriptor (some i) source _ hv

/-- `decodeSeq` preserves the id invariant whatever the outcome. -/
theorem decodeSeq_IdInv (doc : List SceneElem) (st : DecodeState) (h : IdInv st.ids) :
    IdInv ((decodeSeq st doc).1).ids := by
  induction doc generalizing st with
  | nil => simpa [decodeSeq] using h
  | cons e rest ih =>
      simp only [decodeSeq]
      have h1 := decodeElem_IdInv st e h
      rcases hd : decodeElem st e with ⟨st1, err⟩
      rw [hd] at h1
      cases err
      · simpa using ih st1 h1
      · simpa using h1

/-- Projection form of `generate_unique_ok`. -/
theorem generate_unique_ok' (s : IdValidation) (i : Nat) (s' : IdValidation)
    (h : s.generate_unique = .ok (i, s')) :
    i ∉ s.collection ∧ s'.collection = i :: s.collection ∧
      s'.log = s.log ++ [(true, i)] := by
  obtain ⟨rng, c, l⟩ := s
  exact generate_unique_ok rng c l i s' h

/-- On success with a declared id, the source checks and the finish step do
not touch the id-validation state. -/
theorem decodePrefabChecks_ok_ids_some (st st' : DecodeState)
    (descriptor : DePrefabDescriptor) (i : Nat) (source : Option Nat)
    (blank_entity : Nat)
    (h : decodePrefabChecks st descriptor (some i) source blank_entity = (st', none)) :
    st'.ids = st.ids := by
  unfold decodePrefabChecks decodePrefabFinish at h
  by_cases h1 : descriptor.source_prefab_required <;> cases source <;>
    simp [h1, Prod.mk.injEq] at h <;> (subst h; rfl)

/-- On success with no declared id, the finish step's id-validation state is
the one produced by a successful `generate_unique`. -/
theorem decodePrefabChecks_ok_ids_none (st st' : DecodeState)
    (descriptor : DePrefabDescriptor) (source : Option Nat) (blank_entity : Nat)
    (h : decodePrefabChecks st descriptor none source blank_entity = (st', none)) :
    ∃ i, st.ids.generate_unique = .ok (i, st'.ids) := by
  unfold decodePrefabChecks decodePrefabFinish at h
  by_cases h1 : descriptor.source_prefab_required <;> cases source <;> simp [h1] at h
  all_goals {
    cases hg : st.ids.generate_unique with
    | error e => rw [hg] at h; simp at h
    | ok p =>
        obtain ⟨i, ids'⟩ := p
        rw [hg] at h
        simp [Prod.mk.injEq] at h
        subst h
        exact ⟨i, rfl⟩ }

/-- A successful element decode appends exactly one entry to the ghost log:
its declared id flagged `false`, or a generated id flagged `true`. -/
theorem decodeElem_ok_log (st st' : DecodeState) (e : SceneElem)
    (h : decodeElem st e = (st', none)) :
    ∃ u, st'.ids.log = st.ids.log ++ [(e.author_id.isNone, u)] ∧
      ∀ i, e.author_id = some i → u = i := by
  cases e with
  | entity declared =>
      cases declared with
      | none =>
          simp only [decodeElem, decodeEntityElem] at h
          cases hg : st.ids.generate_unique with
          | error e => rw [hg] at h; simp at h
          | ok p =>
              obtain ⟨i, ids'⟩ := p
              rw [hg] at h
              simp [Prod.mk.injEq] at h
              subst h
              obtain ⟨-, -, hl⟩ := generate_unique_ok' st.ids i ids' hg
              exact ⟨i, by simp [hl, SceneElem.author_id], by simp [SceneElem.author_id]⟩
      | some i =>
          simp only [decodeElem, decodeEntityElem, IdValidation.validate] at h
          by_cases hc : i ∈ st.ids.collection
          · simp [hc] at h
          · simp [hc, Prod.mk.injEq] at h
            subst h
            exact ⟨i, by simp [SceneElem.author_id], by simp [SceneElem.author_id]⟩
  | prefabInstance descriptor declared source =>
      cases declared with
      | none =>
          simp only [decodeElem, decodePrefabElem] at h
          obtain ⟨i, hg⟩ := decodePrefabChecks_ok_ids_none _ _ _ _ _ h
          dsimp only at hg
          obtain ⟨-, -, hl⟩ := generate_unique_ok' st.ids i _ hg
          exact ⟨i, by simp [hl, SceneElem.author_id], by simp [SceneElem.author_id]⟩
      | some i =>
          simp only [decodeElem, decodePrefabElem, IdValidation.validate] at h
          by_cases hc : i ∈ st.ids.collection
          · simp [hc] at h
          · simp only [hc, if_neg, ite_false] at h
            have hids := decodePrefabChecks_ok_ids_some _ _ _ _ _ _ h
            dsimp only at hids
            refine ⟨i, ?_, by simp [SceneElem.author_id]⟩
            rw [hids]
            simp [SceneElem.author_id]

/-- A successful sequence decode appends a log segment whose `false`-flagged
entries are exactly the document's declared ids, in order. -/
theorem decodeSeq_ok_log (doc : List SceneElem) (st st' : DecodeState)
    (h : decodeSeq st doc = (st', none)) :
    ∃ seg, st'.ids.log = st.ids.log ++ seg ∧
      seg.filterMap (fun p => if p.1 then none else some p.2) = declaredIds doc := by
  induction doc generalizing st with
  | nil =>
      simp only [decodeSeq, Prod.mk.injEq] at h
      refine ⟨[], ?_, by simp [declaredIds]⟩
      rw [← h.1]
      simp
  | cons e rest ih =>
      simp only [decodeSeq] at h
      rcases hd : decodeElem st e with ⟨st1, err⟩
      rw [hd] at h
      cases err with
      | some err => simp at h
      | none =>
          simp only at h
          obtain ⟨u, hu1, hu2⟩ := decodeElem_ok_log st st1 e hd
          obtain ⟨seg, hs1, hs2⟩ := ih st1 h
          refine ⟨(e.author_id.isNone, u) :: seg, by rw [hs1, hu1]; simp, ?_⟩
          rcases ha : e.author_id with _ | i
          · simp only [ha, Option.isNone_none, List.filterMap_cons, if_pos]
            simpa [declaredIds, List.filterMap_cons, ha] using hs2
          · have : u = i := hu2 i ha
            subst this
            simp only [ha, Option.isNone_some, List.filterMap_cons, if_neg, Bool.false_eq_true,
              ite_false]
            simpa [declaredIds, List.filterMap_cons, ha] using hs2

/-- An element declaring an id already in the insertion set is rejected with
the conflicting id named. -/
theorem decodeElem_conflict (st : DecodeState) (e : SceneElem) (i : Nat)
    (hid : e.author_id = some i) (hin : i ∈ st.ids.collection) :
    (decodeElem st e).2 = some (.conflictingId i) := by
  cases e with
  | entity declared =>
      cases declared with
      | none => simp [SceneElem.author_id] at hid
      | some j =>
          obtain rfl : j = i := by simpa [SceneElem.author_id] using hid
          simp [decodeElem, decodeEntityElem, IdValidation.validate, hin]
  | prefabInstance descriptor declared source =>
      cases declared with
      | none => simp [SceneElem.author_id] at hid
      | some j =>
          obtain rfl : j = i := by simpa [SceneElem.author_id] using hid
          simp [decodeElem, decodePrefabElem, IdValidation.validate, hin]

/-- Every id declared in a successfully decoded document ends up in the
insertion set. -/
theorem decodeSeq_ok_declared_subset (doc : List SceneElem) (st st' : DecodeState)
    (hInv : IdInv st.ids) (h : decodeSeq st doc = (st', none)) :
    ∀ i ∈ declaredIds doc, i ∈ st'.ids.collection := by
  intro i hi
  obtain ⟨seg, hs1, hs2⟩ := decodeSeq_ok_log doc st st' h
  have hInv' := decodeSeq_IdInv doc st hInv
  rw [h] at hInv'
  rw [← hs2, List.mem_filterMap] at hi
  obtain ⟨p, hp, hpe⟩ := hi
  obtain ⟨pb, pv⟩ := p
  cases pb with
  | true => simp at hpe
  | false =>
      simp at hpe
      subst hpe
      refine hInv'.2 pv ?_
      simp only [logIds, hs1, List.map_append, List.mem_append]
      exact Or.inr (List.mem_map_of_mem Prod.snd hp)

/-- The declared-id projection of a log segment is a sublist of its ids. -/
theorem filterMap_declared_sublist (l : List (Bool × Nat)) :
    List.Sublist (l.filterMap fun p => if p.1 then none else some p.2) (l.map Prod.snd) := by
  induction l with
  | nil => simp
  | cons p t ih =>
      obtain ⟨b, v⟩ := p
      cases b
      · simpa using List.Sublist.cons₂ v ih
      · simpa using List.Sublist.cons v ih

/-- On a log with pairwise-distinct ids, a generated id and a declared id are
never equal. -/
theorem generated_declared_disjoint (l : List (Bool × Nat))
    (hnd : (l.map Prod.snd).Nodup) (x : Nat)
    (hg : x ∈ l.filterMap fun p => if p.1 then some p.2 else none)
    (hd : x ∈ l.filterMap fun p => if p.1 then none else some p.2) : False := by
  rw [List.mem_filterMap] at hg hd
  obtain ⟨p, hp, hpe⟩ := hg
  obtain ⟨q, hq, hqe⟩ := hd
  obtain ⟨pb, pv⟩ := p
  obtain ⟨qb, qv⟩ := q
  cases pb with
  | false => simp at hpe
  | true =>
      cases qb with
      | true => simp at hqe
      | false =>
          simp at hpe hqe
          subst hpe
          subst hqe
          have h2 := List.inj_on_of_nodup_map hnd hp hq rfl
          simp at h2

/-- C6: a document that decodes successfully has pairwise-distinct explicit
author ids (so any document with a duplicate is rejected), and when a prefix
decodes successfully and a later element re-declares one of its ids, the
decode of the whole document fails naming exactly that conflicting id. -/
theorem c6_duplicate_author_id_rejected (rng : List Nat) (doc xs ys : List SceneElem)
    (e : SceneElem) (i : Nat) (st' st1 : DecodeState) :
    (decodeSeq (initDecodeState rng) doc = (st', none) → (declaredIds doc).Nodup) ∧
    (decodeSeq (initDecodeState rng) xs = (st1, none) → i ∈ declaredIds xs →
      e.author_id = some i →
      (decodeSeq (initDecodeState rng) (xs ++ e :: ys)).2 = some (.conflictingId i)) := by
  constructor
  · intro h
    obtain ⟨seg, hs1, hs2⟩ := decodeSeq_ok_log doc (initDecodeState rng) st' h
    have hInv' := decodeSeq_IdInv doc (initDecodeState rng) (by simp [initDecodeState, IdInv, logIds])
    rw [h] at hInv'
    have hnd : (seg.map Prod.snd).Nodup := by
      have := hInv'.1
      rw [logIds, hs1] at this
      simpa [initDecodeState] using this
    rw [← hs2]
    exact (filterMap_declared_sublist seg).nodup hnd
  · intro h hmem hid
    rw [decodeSeq_append, h]
    have hin : i ∈ st1.ids.collection :=
      decodeSeq_ok_declared_subset xs (initDecodeState rng) st1
        (by simp [initDecodeState, IdInv, logIds]) h i hmem
    have hc := decodeElem_conflict st1 e i hid hin
    simp only [decodeSeq]
    rcases hd : decodeElem st1 e with ⟨st2, err⟩
    rw [hd] at hc
    simp at hc
    subst hc
    simp

/-- Witness for C6: the two-element document declaring `4` twice is rejected
with the conflicting id `4` named, and a successfully decoding document has
distinct declared ids. -/
theorem c6_duplicate_author_id_rejected_witness :
    (declaredIds [SceneElem.entity (some 4), SceneElem.entity (some 9)]).Nodup ∧
    (decodeSeq (initDecodeState [])
        ([SceneElem.entity (some 4)] ++ SceneElem.entity (some 4) :: [])).2 =
      some (.conflictingId 4) := by
  have h := c6_duplicate_author_id_rejected [] [SceneElem.entity (some 4), SceneElem.entity (some 9)]
    [SceneElem.entity (some 4)] [] (SceneElem.entity (some 4)) 4
    (decodeSeq (initDecodeState []) [SceneElem.entity (some 4), SceneElem.entity (some 9)]).1
    (decodeSeq (initDecodeState []) [SceneElem.entity (some 4)]).1
  refine ⟨h.1 rfl, h.2 rfl (by decide) rfl⟩

/-- A failing head element fails the sequence with the same error. -/
theorem decodeSeq_cons_err (st : DecodeState) (e : SceneElem) (rest : List SceneElem)
    (err : DecodeErr) (h : (decodeElem st e).2 = some err) :
    (decodeSeq st (e :: rest)).2 = some err := by
  simp only [decodeSeq]
  rcases hd : decodeElem st e with ⟨st2, e2⟩
  rw [hd] at h
  simp at h
  subst h
  simp

/-- The missing-source rejection at element level: a document-backed template
instance without a `source` field fails with the missing-field error (given
its declared id, if any, does not already conflict). -/
theorem decodePrefabElem_missing_source (st : DecodeState)
    (descriptor : DePrefabDescriptor) (declared : Option Nat)
    (hreq : descriptor.source_prefab_required = true)
    (hid : ∀ j, declared = some j → j ∉ st.ids.collection) :
    (decodePrefabElem st descriptor declared none).2 = some (.missingField "source") := by
  cases declared with
  | none => simp [decodePrefabElem, decodePrefabChecks, hreq]
  | some j =>
      have hj := hid j rfl
      simp [decodePrefabElem, IdValidation.validate, hj, decodePrefabChecks, hreq]

/-- The unused-source rejection at element level: a procedural-only template
instance that supplies a `source` field fails with the custom error. -/
theorem decodePrefabElem_unused_source (st : DecodeState)
    (descriptor : DePrefabDescriptor) (declared : Option Nat) (srcH : Nat)
    (hreq : descriptor.source_prefab_required = false)
    (hid : ∀ j, declared = some j → j ∉ st.ids.collection) :
    (decodePrefabElem st descriptor declared (some srcH)).2 =
      some (.customMsg "source isn't used by prefab") := by
  cases declared with
  | none => simp [decodePrefabElem, decodePrefabChecks, hreq]
  | some j =>
      have hj := hid j rfl
      simp [decodePrefabElem, IdValidation.validate, hj, decodePrefabChecks, hreq]

/-- C7: a document-backed template element lacking `source` fails the decode
with a missing-field error for `source`, and a procedural-only template
element supplying `source` fails the whole document decode — both at element
level and embedded at any position of a document whose prefix decodes. -/
theorem c7_source_requirement_checks (st st1 : DecodeState)
    (descriptor : DePrefabDescriptor) (declared : Option Nat) (srcH : Nat)
    (rng : List Nat) (xs ys : List SceneElem) :
    (descriptor.source_prefab_required = true →
      (∀ j, declared = some j → j ∉ st.ids.collection) →
      (decodePrefabElem st descriptor declared none).2 = some (.missingField "source")) ∧
    (descriptor.source_prefab_required = false →
      (∀ j, declared = some j → j ∉ st.ids.collection) →
      (decodePrefabElem st descriptor declared (some srcH)).2 =
        some (.customMsg "source isn't used by prefab")) ∧
    (decodeSeq (initDecodeState rng) xs = (st1, none) →
      descriptor.source_prefab_required = true →
      (∀ j, declared = some j → j ∉ st1.ids.collection) →
      (decodeSeq (initDecodeState rng)
        (xs ++ SceneElem.prefabInstance descriptor declared none :: ys)).2 =
          some (.missingField "source")) ∧
    (decodeSeq (initDecodeState rng) xs = (st1, none) →
      descriptor.source_prefab_required = false →
      (∀ j, declared = some j → j ∉ st1.ids.collection) →
      (decodeSeq (initDecodeState rng)
        (xs ++ SceneElem.prefabInstance descriptor declared (some srcH) :: ys)).2 =
          some (.customMsg "source isn't used by prefab")) := by
  refine ⟨decodePrefabElem_missing_source st descriptor declared,
          decodePrefabElem_unused_source st descriptor declared srcH, ?_, ?_⟩
  · intro hxs hreq hid
    rw [decodeSeq_append, hxs]
    exact decodeSeq_cons_err st1 _ ys _
      (decodePrefabElem_missing_source st1 descriptor declared hreq hid)
  · intro hxs hreq hid
    rw [decodeSeq_append, hxs]
    exact decodeSeq_cons_err st1 _ ys _
      (decodePrefabElem_unused_source st1 descriptor declared srcH hreq hid)

/-- Witness for C7: a required-source template without `source`, and a
procedural template with one, both rejected, also after a decoded prefix. -/
theorem c7_source_requirement_checks_witness :
    (decodePrefabElem (initDecodeState []) ⟨true, "u", 0⟩ (some 3) none).2 =
      some (.missingField "source") ∧
    (decodePrefabElem (initDecodeState []) ⟨false, "u", 0⟩ (some 3) (some 8)).2 =
      some (.customMsg "source isn't used by prefab") ∧
    (decodeSeq (initDecodeState [])
      ([SceneElem.entity (some 1)] ++
        SceneElem.prefabInstance ⟨true, "u", 0⟩ (some 3) none :: [])).2 =
      some (.missingField "source") := by
  have h1 := c7_source_requirement_checks (initDecodeState [])
    (decodeSeq (initDecodeState []) [SceneElem.entity (some 1)]).1
    ⟨true, "u", 0⟩ (some 3) 8 [] [SceneElem.entity (some 1)] []
  have h2 := c7_source_requirement_checks (initDecodeState [])
    (decodeSeq (initDecodeState []) [SceneElem.entity (some 1)]).1
    ⟨false, "u", 0⟩ (some 3) 8 [] [SceneElem.entity (some 1)] []
  refine ⟨h1.1 rfl (by decide), h2.2.1 rfl (by decide), h1.2.2.1 rfl rfl (by decide)⟩

/-- C3 counterexample: with the random stream starting at `5`, the first
element (no declared id) receives the generated id `5`, which equals the id
`5` explicitly declared by the second element of the same document — the
generated id collided with a declared id that appears after it. -/
theorem c3_generated_id_collides_with_later_declared :
    5 ∈ generatedIds (decodeSeq (initDecodeState [5])
        [SceneElem.entity none, SceneElem.entity (some 5)]).1 ∧
    5 ∈ declaredIds [SceneElem.entity none, SceneElem.entity (some 5)] := by decide

/-- C3 amended: the validation log never records the same id twice — so a
generated id differs from every id validated before it, in particular from
every earlier declared id — and in any document that decodes successfully a
generated id never equals any declared id of the document. -/
theorem c3_generated_ids_amended (rng : List Nat) (doc : List SceneElem)
    (st' : DecodeState) (g d : Nat) :
    (logIds ((decodeSeq (initDecodeState rng) doc).1).ids).Nodup ∧
    (decodeSeq (initDecodeState rng) doc = (st', none) →
      g ∈ generatedIds st' → d ∈ declaredIds doc → g ≠ d) := by
  have hInv0 : IdInv (initDecodeState rng).ids := by
    simp [initDecodeState, IdInv, logIds]
  constructor
  · exact (decodeSeq_IdInv doc (initDecodeState rng) hInv0).1
  · intro h hg hd hne
    subst hne
    obtain ⟨seg, hs1, hs2⟩ := decodeSeq_ok_log doc (initDecodeState rng) st' h
    have hInv' := decodeSeq_IdInv doc _ hInv0
    rw [h] at hInv'
    have hlog : st'.ids.log = seg := by simpa [initDecodeState] using hs1
    have hnd : (seg.map Prod.snd).Nodup := by
      have h1 := hInv'.1
      rw [logIds, hlog] at h1
      exact h1
    refine generated_declared_disjoint seg hnd g ?_ ?_
    · rw [generatedIds, hlog] at hg
      exact hg
    · rw [← hs2] at hd
      exact hd

/-- Witness for the amended C3: in a successfully decoding document the
generated id `2` differs from the declared id `1`. -/
theorem c3_generated_ids_amended_witness :
    (logIds ((decodeSeq (initDecodeState [2])
        [SceneElem.entity (some 1), SceneElem.entity none]).1).ids).Nodup ∧
    (2 : Nat) ≠ 1 := by
  have h := c3_generated_ids_amended [2]
    [SceneElem.entity (some 1), SceneElem.entity none]
    { ids := { rng := [], collection := [2, 1], log := [(false, 1), (true, 2)] },
      source_to_prefab := [(1, 0), (2, 1)], world_next := 2 } 2 1
  exact ⟨h.1, h.2 (by decide) (by decide) (by decide)⟩

/-! ### Frame lemmas for the scheduler -/

/-- Updating one key leaves every other key's binding unchanged. -/
theorem alookup_aupdate_ne {α β : Type} [DecidableEq α] (k n : α) (v : β)
    (l : List (α × β)) (h : k ≠ n) : alookup n (aupdate k v l) = alookup n l := by
  induction l with
  | nil => rfl
  | cons p t ih =>
      obtain ⟨a, b⟩ := p
      by_cases ha : a = k
      · subst ha
        simp [aupdate, alookup, h, ih]
      · simp [aupdate, ha, alookup, ih]

/-- `aupdate` does not change the key list. -/
theorem aupdate_map_fst {α β : Type} [DecidableEq α] (k : α) (v : β)
    (l : List (α × β)) : (aupdate k v l).map Prod.fst = l.map Prod.fst := by
  induction l with
  | nil => rfl
  | cons p t ih =>
      obtain ⟨a, b⟩ := p
      by_cases ha : a = k <;> simp [aupdate, ha, ih]

/-- Lookup across an append: the left list wins. -/
theorem alookup_append {α β : Type} [DecidableEq α] (k : α) (l₁ l₂ : List (α × β)) :
    alookup k (l₁ ++ l₂) =
      match alookup k l₁ with
      | some v => some v
      | none => alookup k l₂ := by
  induction l₁ with
  | nil => simp
  | cons p t ih =>
      obtain ⟨a, b⟩ := p
      by_cases ha : a = k <;> simp [alookup, ha, ih]

/-- A value in an updated map is the inserted one or an old one. -/
theorem cinsert_map_snd_mem {α β : Type} [DecidableEq α] (k : α) (x v : β)
    (l : List (α × β)) (h : v ∈ (cinsert k x l).map Prod.snd) :
    v = x ∨ v ∈ l.map Prod.snd := by
  induction l with
  | nil => simpa [cinsert] using h
  | cons p t ih =>
      obtain ⟨a, b⟩ := p
      by_cases ha : a = k
      · rw [show cinsert k x ((a, b) :: t) =
            if a = k then (a, x) :: t else (a, b) :: cinsert k x t from rfl,
          if_pos ha, List.map_cons, List.mem_cons] at h
        rcases h with h | h
        · exact Or.inl h
        · exact Or.inr (by rw [List.map_cons, List.mem_cons]; exact Or.inr h)
      · rw [show cinsert k x ((a, b) :: t) =
            if a = k then (a, x) :: t else (a, b) :: cinsert k x t from rfl,
          if_neg ha, List.map_cons, List.mem_cons] at h
        rcases h with h | h
        · exact Or.inr (by rw [List.map_cons, List.mem_cons]; exact Or.inl h)
        · rcases ih h with h | h
          · exact Or.inl h
          · exact Or.inr (by rw [List.map_cons, List.mem_cons]; exact Or.inr h)

/-- On a key-distinct association list, membership determines the lookup. -/
theorem alookup_of_mem_nodup {α β : Type} [DecidableEq α] (l : List (α × β))
    (a : α) (b : β) (hmem : (a, b) ∈ l) (hnd : (l.map Prod.fst).Nodup) :
    alookup a l = some b := by
  induction l with
  | nil => simp at hmem
  | cons p t ih =>
      obtain ⟨x, y⟩ := p
      rcases List.mem_cons.mp hmem with heq | hmem'
      · rw [← heq]
        simp [alookup]
      · by_cases hx : x = a
        · subst hx
          exfalso
          have hmem2 : x ∈ t.map Prod.fst := by
            simpa using List.mem_map_of_mem Prod.fst hmem'
          rw [List.map_cons, List.nodup_cons] at hnd
          exact hnd.1 hmem2
        · simp only [alookup, if_neg hx]
          refine ih hmem' ?_
          rw [List.map_cons, List.nodup_cons] at hnd
          exact hnd.2

/-- Well-formedness of the model world: every live entity id is below the
spawn counter, and ids are pairwise distinct. -/
def MWorld.WF (w : MWorld) : Prop :=
  (∀ e ∈ w.ents.map Prod.fst, e < w.next) ∧ (w.ents.map Prod.fst).Nodup

/-- Writing one entity leaves every other entity unchanged. -/
theorem MWorld.get_set_ne (w : MWorld) (m n : Nat) (s : EntityState) (h : m ≠ n) :
    (w.set m s).get n = w.get n := by
  simp [MWorld.get, MWorld.set, alookup_aupdate_ne m n s w.ents h]

/-- Spawning leaves every existing entity unchanged. -/
theorem MWorld.get_spawn_ne (w : MWorld) (n : Nat) (h : n ≠ w.next) :
    (w.spawn).2.get n = w.get n := by
  unfold MWorld.get MWorld.spawn
  rw [alookup_append]
  cases hl : alookup n w.ents with
  | some s => simp
  | none =>
      simp only [alookup, alookup_nil]
      rw [if_neg (show ¬w.next = n from fun hh => h hh.symm)]

/-- `set` preserves well-formedness. -/
theorem MWorld.WF_set (w : MWorld) (m : Nat) (s : EntityState) (h : w.WF) :
    (w.set m s).WF := by
  unfold MWorld.WF MWorld.set at *
  simpa [aupdate_map_fst] using h

/-- `spawn` preserves well-formedness. -/
theorem MWorld.WF_spawn (w : MWorld) (h : w.WF) : (w.spawn).2.WF := by
  obtain ⟨h1, h2⟩ := h
  constructor
  · intro e he
    simp only [MWorld.spawn, List.map_append, List.map_cons, List.map_nil,
      List.mem_append, List.mem_singleton] at he ⊢
    rcases he with he | he
    · exact Nat.lt_succ_of_lt (h1 e he)
    · subst he
      exact Nat.lt_succ_self _
  · simp only [MWorld.spawn, List.map_append, List.map_cons, List.map_nil]
    refine List.Nodup.append h2 (List.nodup_singleton _) ?_
    intro x hx hx'
    rw [List.mem_singleton] at hx'
    exact absurd hx' (Nat.ne_of_lt (h1 x hx))

/-- A successful lookup comes from a member of the list. -/
theorem mem_of_alookup_eq_some {α β : Type} [DecidableEq α] (l : List (α × β))
    (a : α) (b : β) (h : alookup a l = some b) : (a, b) ∈ l := by
  induction l with
  | nil => simp [alookup] at h
  | cons p t ih =>
      obtain ⟨x, y⟩ := p
      by_cases hx : x = a
      · subst hx
        simp [alookup] at h
        rw [← h]
        exact List.mem_cons_self _ _
      · simp only [alookup, if_neg hx] at h
        exact List.mem_cons_of_mem _ (ih h)

/-- Frame property of the copy loop: an entity that is neither the pending
root nor freshly spawned is untouched, well-formedness and the spawn bound
are preserved, and every instance entity recorded in the handle map differs
from it. -/
theorem copyPrefabEntities_frame (reg : List TypeId) (proot root_entity n : Nat)
    (pw : List (Nat × EntityState)) :
    ∀ (w : MWorld) (pmap : List (Nat × Nat)) (w' : MWorld) (pmap' : List (Nat × Nat)),
    w.WF → n < w.next → root_entity ≠ n →
    (∀ v ∈ pmap.map Prod.snd, v ≠ n) →
    copyPrefabEntities reg proot root_entity pw w pmap = .ok (w', pmap') →
    w'.get n = w.get n ∧ w'.WF ∧ w.next ≤ w'.next ∧
      (∀ v ∈ pmap'.map Prod.snd, v ≠ n) := by
  induction pw with
  | nil =>
      intro w pmap w' pmap' hWF hn hr hm h
      simp only [copyPrefabEntities, Except.ok.injEq, Prod.mk.injEq] at h
      obtain ⟨h1, h2⟩ := h
      subst h1
      subst h2
      exact ⟨rfl, hWF, Nat.le_refl _, hm⟩
  | cons hd pw ih =>
      intro w pmap w' pmap' hWF hn hr hm h
      obtain ⟨pe, ps⟩ := hd
      rw [copyPrefabEntities] at h
      by_cases hpe : pe = proot
      · rw [if_pos hpe] at h
        cases hc : copyEntityComponents true reg ps (w.get root_entity) with
        | error e => rw [hc] at h; simp at h
        | ok dst' =>
            rw [hc] at h
            simp only at h
            have hm' : ∀ v ∈ (cinsert pe root_entity pmap).map Prod.snd, v ≠ n := by
              intro v hv
              rcases cinsert_map_snd_mem pe root_entity v pmap hv with hv | hv
              · rw [hv]; exact hr
              · exact hm v hv
            obtain ⟨hget, hWF', hnext, hvals⟩ :=
              ih (w.set root_entity dst') (cinsert pe root_entity pmap) w' pmap'
                (MWorld.WF_set w root_entity dst' hWF) hn hr hm' h
            refine ⟨?_, hWF', hnext, hvals⟩
            rw [hget, MWorld.get_set_ne w root_entity n dst' hr]
      · rw [if_neg hpe] at h
        cases hl : alookup pe pmap with
        | some ie =>
            rw [hl] at h
            simp only at h
            cases hc : copyEntityComponents false reg ps (w.get ie) with
            | error e => rw [hc] at h; simp at h
            | ok dst' =>
                rw [hc] at h
                simp only at h
                have hie : ie ≠ n :=
                  hm ie (List.mem_map_of_mem Prod.snd
                    (mem_of_alookup_eq_some pmap pe ie hl))
                obtain ⟨hget, hWF', hnext, hvals⟩ :=
                  ih (w.set ie dst') pmap w' pmap'
                    (MWorld.WF_set w ie dst' hWF) hn hr hm h
                refine ⟨?_, hWF', hnext, hvals⟩
                rw [hget, MWorld.get_set_ne w ie n dst' hie]
        | none =>
            rw [hl] at h
            simp only at h
            cases hc : copyEntityComponents false reg ps ((w.spawn).2.get (w.spawn).1) with
            | error e =>
                rw [hc] at h
                simp at h
            | ok dst' =>
                rw [hc] at h
                simp only at h
                have hfresh : (w.spawn).1 ≠ n := Nat.ne_of_gt hn
                have hm' : ∀ v ∈ (cinsert pe (w.spawn).1 pmap).map Prod.snd, v ≠ n := by
                  intro v hv
                  rcases cinsert_map_snd_mem pe (w.spawn).1 v pmap hv with hv | hv
                  · rw [hv]; exact hfresh
                  · exact hm v hv
                have hWF2 : ((w.spawn).2).WF := MWorld.WF_spawn w hWF
                have hn2 : n < (((w.spawn).2).set (w.spawn).1 dst').next :=
                  Nat.lt_succ_of_lt hn
                obtain ⟨hget, hWF', hnext, hvals⟩ :=
                  ih (((w.spawn).2).set (w.spawn).1 dst') (cinsert pe (w.spawn).1 pmap) w' pmap'
                    (MWorld.WF_set _ (w.spawn).1 dst' hWF2) hn2 hr hm' h
                refine ⟨?_, hWF', ?_, hvals⟩
                · rw [hget, MWorld.get_set_ne _ (w.spawn).1 n dst' hfresh,
                    MWorld.get_spawn_ne w n hfresh.symm]
                · exact Nat.le_trans (Nat.le_succ _) hnext

/-- Frame property of the remap-and-parent loop: an entity not among the
visited instance entities is untouched. -/
theorem mapAndParentInstances_frame (root_entity n : Nat)
    (pmap : List (Nat × Nat)) (vals : List Nat) :
    ∀ (w w' : MWorld), w.WF → (∀ v ∈ vals, v ≠ n) →
    mapAndParentInstances root_entity pmap vals w = .ok w' →
    w'.get n = w.get n ∧ w'.WF ∧ w'.next = w.next := by
  induction vals with
  | nil =>
      intro w w' hWF hv h
      simp only [mapAndParentInstances, Except.ok.injEq] at h
      subst h
      exact ⟨rfl, hWF, rfl⟩
  | cons ie rest ih =>
      intro w w' hWF hv h
      rw [mapAndParentInstances] at h
      cases hm : mapEntityComponents pmap (w.get ie) with
      | error e => rw [hm] at h; simp at h
      | ok s' =>
          rw [hm] at h
          simp only at h
          have hie : ie ≠ n := hv ie (List.mem_cons_self _ _)
          have hv' : ∀ v ∈ rest, v ≠ n := fun v hvm => hv v (List.mem_cons_of_mem _ hvm)
          obtain ⟨hget, hWF', hnext⟩ :=
            ih _ w' (MWorld.WF_set w ie _ hWF) hv' h
          refine ⟨?_, hWF', hnext⟩
          rw [hget, MWorld.get_set_ne w ie n _ hie]

/-- Frame property of the root finalisation: only the root entity is
written. -/
theorem finishRoot_frame (constructs : Nat → Bool) (prefab : MPrefab)
    (root_entity n : Nat) (w w' : MWorld) (hr : root_entity ≠ n) (hWF : w.WF)
    (h : finishRoot constructs prefab w root_entity = .ok w') :
    w'.get n = w.get n ∧ w'.WF ∧ w'.next = w.next := by
  simp only [finishRoot] at h
  rcases hc : (w.get root_entity).construct with _ | f <;> rw [hc] at h <;>
    simp only at h <;> split at h <;>
    first
      | (simp only [Except.ok.injEq] at h
         subst h
         exact ⟨MWorld.get_set_ne w root_entity n _ hr,
           MWorld.WF_set w root_entity _ hWF, rfl⟩)
      | simp at h

/-- Frame property of a full node expansion: an entity other than the
expanded root and below the spawn counter is untouched. -/
theorem expandItem_frame (constructs : Nat → Bool) (reg : List TypeId)
    (prefab : MPrefab) (root_entity n : Nat) (w w' : MWorld)
    (hr : root_entity ≠ n) (hWF : w.WF) (hn : n < w.next)
    (h : expandItem constructs reg prefab w root_entity = .ok w') :
    w'.get n = w.get n ∧ w'.WF ∧ n < w'.next := by
  unfold expandItem at h
  cases h1 : copyPrefabEntities reg prefab.root_entity root_entity prefab.pworld w [] with
  | error e => rw [h1] at h; simp at h
  | ok p =>
      obtain ⟨w1, pmap⟩ := p
      rw [h1] at h
      simp only at h
      obtain ⟨hget1, hWF1, hnext1, hvals⟩ :=
        copyPrefabEntities_frame reg prefab.root_entity root_entity n prefab.pworld
          w [] w1 pmap hWF hn hr (by simp) h1
      cases h2 : mapAndParentInstances root_entity pmap (pmap.map Prod.snd) w1 with
      | error e => rw [h2] at h; simp at h
      | ok w2 =>
          rw [h2] at h
          simp only at h
          obtain ⟨hget2, hWF2, hnext2⟩ :=
            mapAndParentInstances_frame root_entity n pmap (pmap.map Prod.snd)
              w1 w2 hWF1 hvals h2
          obtain ⟨hget3, hWF3, hnext3⟩ :=
            finishRoot_frame constructs prefab root_entity n w2 w' hr hWF2 h
          refine ⟨by rw [hget3, hget2, hget1], hWF3, ?_⟩
          rw [hnext3, hnext2]
          exact Nat.lt_of_lt_of_le hn hnext1

/-- Type-mismatch behaviour of one queue item: the pending tag is removed,
the error marker attached, the node is otherwise untouched and processing
stops without a panic and without touching the rest of the world. -/
theorem processItem_mismatch (constructs : Nat → Bool) (reg : List TypeId)
    (assets : Nat → Option MPrefab) (w : MWorld) (blacklist : List Nat)
    (root_entity source_prefab : Nat) (uuid : Uuid) (prefab : MPrefab)
    (h1 : (w.get root_entity).typeUuid = some uuid)
    (h2 : assets source_prefab = some prefab)
    (h3 : prefab.dataUuid ≠ uuid) :
    processItem constructs reg assets w blacklist root_entity source_prefab =
      .ok (w.set root_entity
        { w.get root_entity with
          notInstantiated := false,
          errorTag := some .wrongExpectedSourcePrefab }, blacklist) := by
  unfold processItem
  rw [h2]
  simp only [h1, if_pos h3]

/-- Frame property of one queue item: an entity other than the item's root
and below the spawn counter is untouched. -/
theorem processItem_frame (constructs : Nat → Bool) (reg : List TypeId)
    (assets : Nat → Option MPrefab) (w : MWorld) (blacklist : List Nat)
    (root_entity source_prefab n : Nat) (w' : MWorld) (blacklist' : List Nat)
    (hr : root_entity ≠ n) (hWF : w.WF) (hn : n < w.next)
    (h : processItem constructs reg assets w blacklist root_entity source_prefab =
      .ok (w', blacklist')) :
    w'.get n = w.get n ∧ w'.WF ∧ n < w'.next := by
  unfold processItem at h
  cases ha : assets source_prefab with
  | none =>
      rw [ha] at h
      simp only [Except.ok.injEq, Prod.mk.injEq] at h
      obtain ⟨h1, -⟩ := h
      subst h1
      exact ⟨rfl, hWF, hn⟩
  | some prefab =>
      rw [ha] at h
      simp only at h
      rcases hu : (w.get root_entity).typeUuid with _ | uuid <;> rw [hu] at h <;>
        simp only at h
      · cases he : expandItem constructs reg prefab w root_entity with
        | error e => rw [he] at h; simp at h
        | ok w2 =>
            rw [he] at h
            simp only [Except.ok.injEq, Prod.mk.injEq] at h
            obtain ⟨h1, -⟩ := h
            subst h1
            exact expandItem_frame constructs reg prefab root_entity n w _ hr hWF hn he
      · split at h
        · simp only [Except.ok.injEq, Prod.mk.injEq] at h
          obtain ⟨h1, -⟩ := h
          subst h1
          exact ⟨MWorld.get_set_ne w root_entity n _ hr,
            MWorld.WF_set w root_entity _ hWF, hn⟩
        · cases he : expandItem constructs reg prefab w root_entity with
          | error e => rw [he] at h; simp at h
          | ok w2 =>
              rw [he] at h
              simp only [Except.ok.injEq, Prod.mk.injEq] at h
              obtain ⟨h1, -⟩ := h
              subst h1
              exact expandItem_frame constructs reg prefab root_entity n w _ hr hWF hn he

/-- An entity without the pending tag never appears in the work queue the
scan produces. -/
theorem enqueue_not_mem (w : MWorld) (n : Nat) (hWF : w.WF)
    (hn : (w.get n).notInstantiated = false) :
    ∀ item ∈ enqueue_prefab_not_instantiated w, item.1 ≠ n := by
  intro item hitem
  unfold enqueue_prefab_not_instantiated at hitem
  rw [List.mem_filterMap] at hitem
  obtain ⟨⟨e, s⟩, hmem, hmk⟩ := hitem
  rcases hh : s.handle with _ | hv <;> rw [hh] at hmk
  · simp at hmk
  · cases hni : s.notInstantiated <;> rw [hni] at hmk
    · simp at hmk
    · simp only [Option.some.injEq] at hmk
      intro heq
      rw [← hmk] at heq
      simp only at heq
      subst heq
      have hl := alookup_of_mem_nodup w.ents e s hmem hWF.2
      rw [MWorld.get, hl] at hn
      simp only [Option.getD_some] at hn
      rw [hni] at hn
      exact Bool.true_eq_false.mp hn

/-- Frame property of a queue drain: an entity not among the item roots and
below the spawn counter is untouched. -/
theorem drainPopped_frame (constructs : Nat → Bool) (reg : List TypeId)
    (assets : Nat → Option MPrefab) (n : Nat) (items : List (Nat × Nat)) :
    ∀ (w : MWorld) (blacklist : List Nat) (w' : MWorld) (blacklist' : List Nat),
    (∀ it ∈ items, it.1 ≠ n) → w.WF → n < w.next →
    drainPopped constructs reg assets w items blacklist = .ok (w', blacklist') →
    w'.get n = w.get n ∧ w'.WF ∧ n < w'.next := by
  induction items with
  | nil =>
      intro w blacklist w' blacklist' hit hWF hn h
      simp only [drainPopped, Except.ok.injEq, Prod.mk.injEq] at h
      obtain ⟨h1, -⟩ := h
      subst h1
      exact ⟨rfl, hWF, hn⟩
  | cons it rest ih =>
      intro w blacklist w' blacklist' hit hWF hn h
      obtain ⟨root_entity, source_prefab⟩ := it
      rw [drainPopped] at h
      cases hp : processItem constructs reg assets w blacklist root_entity source_prefab with
      | error e => rw [hp] at h; simp at h
      | ok p =>
          obtain ⟨w1, bl1⟩ := p
          rw [hp] at h
          simp only at h
          obtain ⟨hget1, hWF1, hn1⟩ :=
            processItem_frame constructs reg assets w blacklist root_entity source_prefab
              n w1 bl1 (hit _ (List.mem_cons_self _ _)) hWF hn hp
          obtain ⟨hget2, hWF2, hn2⟩ :=
            ih w1 bl1 w' blacklist' (fun x hx => hit x (List.mem_cons_of_mem _ hx)) hWF1 hn1 h
          exact ⟨by rw [hget2, hget1], hWF2, hn2⟩

/-- Frame property of the outer spawner loop: an untagged entity below the
spawn counter that is not in the current queue stays untouched through every
iteration. -/
theorem spawnerLoop_frame (constructs : Nat → Bool) (reg : List TypeId)
    (assets : Nat → Option MPrefab) (n : Nat) (fuel : Nat) :
    ∀ (w : MWorld) (queue : List (Nat × Nat)) (blacklist : List Nat) (w' : MWorld),
    w.WF → n < w.next → (w.get n).notInstantiated = false →
    (∀ it ∈ queue, it.1 ≠ n) →
    spawnerLoop constructs reg assets fuel w queue blacklist = .ok w' →
    w'.get n = w.get n ∧ w'.WF ∧ n < w'.next := by
  induction fuel with
  | zero =>
      intro w queue blacklist w' hWF hn htag hq h
      simp only [spawnerLoop, Except.ok.injEq] at h
      subst h
      exact ⟨rfl, hWF, hn⟩
  | succ fuel ih =>
      intro w queue blacklist w' hWF hn htag hq h
      rw [spawnerLoop] at h
      cases hd : drainQueue constructs reg assets w queue blacklist with
      | error e => rw [hd] at h; simp at h
      | ok p =>
          obtain ⟨w1, bl1⟩ := p
          rw [hd] at h
          simp only at h
          unfold drainQueue at hd
          obtain ⟨hget1, hWF1, hn1⟩ :=
            drainPopped_frame constructs reg assets n queue.reverse w blacklist w1 bl1
              (fun it hit => hq it (List.mem_reverse.mp hit)) hWF hn hd
          have htag1 : (w1.get n).notInstantiated = false := by rw [hget1]; exact htag
          split at h
          · simp only [Except.ok.injEq] at h
            subst h
            exact ⟨hget1, hWF1, hn1⟩
          · have hq1 : ∀ it ∈ (enqueue_prefab_not_instantiated w1).filter
                (fun item => decide (item.1 ∉ bl1)), it.1 ≠ n := by
              intro it hit
              exact enqueue_not_mem w1 n hWF1 htag1 it (List.mem_of_mem_filter hit)
            obtain ⟨hget2, hWF2, hn2⟩ := ih w1 _ bl1 w' hWF1 hn1 htag1 hq1 h
            exact ⟨by rw [hget2, hget1], hWF2, hn2⟩

/-- C4: processing a pending node whose declared expected-source uuid differs
from the loaded asset's data uuid removes the pending tag and attaches the
error marker carrying the type-mismatch reason, without a panic, without
touching anything else; and the state is terminal — any later scheduling
pass leaves an untagged node (in particular this one) entirely unchanged. -/
theorem c4_type_mismatch_terminal (constructs : Nat → Bool) (reg : List TypeId)
    (assets : Nat → Option MPrefab) (w : MWorld) (blacklist : List Nat)
    (root_entity source_prefab : Nat) (uuid : Uuid) (prefab : MPrefab)
    (fuel : Nat) (v v' : MWorld) (n : Nat) :
    ((w.get root_entity).typeUuid = some uuid → assets source_prefab = some prefab →
      prefab.dataUuid ≠ uuid →
      processItem constructs reg assets w blacklist root_entity source_prefab =
        .ok (w.set root_entity
          { w.get root_entity with
            notInstantiated := false,
            errorTag := some .wrongExpectedSourcePrefab }, blacklist)) ∧
    (v.WF → n < v.next → (v.get n).notInstantiated = false →
      prefab_managing_pass constructs reg assets fuel v = .ok v' →
      v'.get n = v.get n ∧ v'.WF ∧ n < v'.next) := by
  constructor
  · exact processItem_mismatch constructs reg assets w blacklist root_entity
      source_prefab uuid prefab
  · intro hWF hn htag h
    unfold prefab_managing_pass at h
    dsimp only at h
    split at h
    · simp only [Except.ok.injEq] at h
      subst h
      exact ⟨rfl, hWF, hn⟩
    · exact spawnerLoop_frame constructs reg assets n fuel v
        (enqueue_prefab_not_instantiated v) [] v' hWF hn htag
        (enqueue_not_mem v n hWF htag) h

/-- Witness for C4: a pending node expecting uuid `"a"` whose asset has data
uuid `"b"` is error-marked with the tag removed, and a pass over the
resulting world (which has no pending node) leaves it unchanged. -/
theorem c4_type_mismatch_terminal_witness :
    processItem (fun _ => true) []
        (fun h => if h = 3 then
          some { root_entity := 9, transform := ⟨0, 0, 0⟩, dataUuid := "b",
                 dataConstructOk := true, pworld := [] } else none)
        { next := 1,
          ents := [(0, { handle := some 3, notInstantiated := true, typeUuid := some "a" })] }
        [] 0 3 =
      .ok (MWorld.set
        { next := 1,
          ents := [(0, { handle := some 3, notInstantiated := true, typeUuid := some "a" })] }
        0
        { (MWorld.get
            { next := 1,
              ents := [(0, { handle := some 3, notInstantiated := true,
                             typeUuid := some "a" })] } 0) with
          notInstantiated := false,
          errorTag := some .wrongExpectedSourcePrefab }, []) ∧
    (MWorld.get
        { next := 1,
          ents := [(0, { handle := some 3, notInstantiated := false, typeUuid := some "a",
                         errorTag := some .wrongExpectedSourcePrefab })] } 0) =
      (MWorld.get
        { next := 1,
          ents := [(0, { handle := some 3, notInstantiated := false, typeUuid := some "a",
                         errorTag := some .wrongExpectedSourcePrefab })] } 0) := by
  have h := c4_type_mismatch_terminal (fun _ => true) []
    (fun h => if h = 3 then
      some { root_entity := 9, transform := ⟨0, 0, 0⟩, dataUuid := "b",
             dataConstructOk := true, pworld := [] } else none)
    { next := 1,
      ents := [(0, { handle := some 3, notInstantiated := true, typeUuid := some "a" })] }
    [] 0 3 "a"
    { root_entity := 9, transform := ⟨0, 0, 0⟩, dataUuid := "b",
      dataConstructOk := true, pworld := [] }
    2
    { next := 1,
      ents := [(0, { handle := some 3, notInstantiated := false, typeUuid := some "a",
                     errorTag := some .wrongExpectedSourcePrefab })] }
    { next := 1,
      ents := [(0, { handle := some 3, notInstantiated := false, typeUuid := some "a",
                     errorTag := some .wrongExpectedSourcePrefab })] }
    0
  refine ⟨h.1 (by decide) (by decide) (by decide), ?_⟩
  exact (h.2 (by constructor <;> decide) (by decide) (by decide) rfl).1

end BevyPrefab
